import Mathlib

/-!
# Verification of the opendev agentic tool-calling core

A shallow embedding, in Lean 4, of the core orchestration logic of the
opendev terminal AI-assistant client, together with theorems checking the
natural-language specification against the embedded code.

Embedded components (file references are to the Python source):
* `app/logic/ai_handler.py` — signature derivation and the agent response loop;
* `app/logic/tool_orchestrator.py` — the concurrent tool round orchestrator;
* `app/core/http_service.py` — the streaming chat client (delta accumulation,
  capability fallback, usage recording);
* `app/tools/tool_manager.py` — tool registry, argument validation, execution;
* `app/storage/internal/database.py` — lock-retry / reopen-after-close policy;
* `app/logic/turn_orchestrator.py` — the plan gate.

Modelling conventions: Python dicts used as ordered key/value maps become
association lists (insertion ordered, unique keys where the dict invariant
guarantees it); concurrency nondeterminism (completion order of concurrently
scheduled tool tasks) becomes an explicit permutation parameter; external
collaborators (the provider API, tool handlers, the regex engine, the JSON
parser, the SQL engine) become oracle function parameters; `try/except`
becomes `Except`; Python string truthiness (empty string is falsy) is checked
explicitly.  Machine floats appear in the source only as opaque payloads for
argument validation; they are modelled with integer payloads since none of the
checked claims depends on float arithmetic.
-/

namespace Opendev

/-! ## JSON value model

The model of Python values that travel through `json.dumps` / `json.loads`:
tool-call arguments.  Objects are insertion-ordered association lists, which
is exactly Python's `dict` representation. -/

inductive JsonVal where
  | jnull : JsonVal
  | jbool : Bool → JsonVal
  | jint : Int → JsonVal
  | jstr : String → JsonVal
  | jarr : List JsonVal → JsonVal
  | jobj : List (String × JsonVal) → JsonVal
  deriving Repr, Inhabited

/-- JSON string escaping as performed by `json.dumps`: backslash and quote
are escaped; the claims under check do not depend on control-character or
non-ASCII escapes, so those characters are rendered verbatim. -/
def escapeJsonChar (c : Char) : String :=
  if c = '\\' then "\\\\"
  else if c = '"' then "\\\""
  else String.singleton c

def escapeJson (s : String) : String :=
  String.join (s.toList.map escapeJsonChar)

/-! ### Python string primitives

Character-list models of the Python string methods the source uses
(`str.strip`, `str.startswith`, `str.lower`, `in`, `str.splitlines`);
written over `List Char` so that the kernel can evaluate them on concrete
inputs. -/

/-- `str.strip()` with no argument: leading and trailing whitespace. -/
def pyStrip (s : String) : String :=
  ⟨((s.toList.dropWhile Char.isWhitespace).reverse.dropWhile
    Char.isWhitespace).reverse⟩

/-- `s.startswith(p)`. -/
def pyStartsWith (s p : String) : Bool :=
  p.toList.isPrefixOf s.toList

/-- `str.lower()` (the source only lowercases ASCII error text). -/
def pyLower (s : String) : String :=
  ⟨s.toList.map Char.toLower⟩

def listContainsSub : List Char → List Char → Bool
  | sub, [] => sub.isEmpty
  | sub, x :: xs => sub.isPrefixOf (x :: xs) || listContainsSub sub xs

/-- `sub in s` (Python substring membership). -/
def pyContains (s sub : String) : Bool :=
  listContainsSub sub.toList s.toList

/-- `str.splitlines()` restricted to newline separators, which is all the
source's inputs contain. -/
def splitOnChar (c : Char) : List Char → List (List Char)
  | [] => [[]]
  | x :: xs =>
      let r := splitOnChar c xs
      if x = c then [] :: r
      else
        match r with
        | [] => [[x]]
        | h :: t => (x :: h) :: t

def pySplitLines (s : String) : List String :=
  (splitOnChar (Char.ofNat 10) s.toList).map List.asString

/-- Sort an association list by key, the way `json.dumps(..., sort_keys=True)`
orders an object's members.  `List.insertionSort` is stable, matching
Python's stable `sorted`; with unique keys stability is irrelevant. -/
def sortByKey {κ β : Type} [LinearOrder κ] (l : List (κ × β)) : List (κ × β) :=
  List.insertionSort (fun a b => a.1 ≤ b.1) l

mutual
/-- `json.dumps(v, sort_keys=sk, ensure_ascii=True)` with the default
separators: members joined by a comma-space, keys followed by a colon-space,
object members emitted in sorted key order when `sk` is true and in
insertion order otherwise. -/
def jdump (sk : Bool) : JsonVal → String
  | .jnull => "null"
  | .jbool b => if b then "true" else "false"
  | .jint n => toString n
  | .jstr s => "\"" ++ escapeJson s ++ "\""
  | .jarr xs => "[" ++ String.intercalate ", " (jdumpList sk xs) ++ "]"
  | .jobj fs =>
      let rendered := jdumpFields sk fs
      "\x7b" ++ String.intercalate ", "
        (((if sk then sortByKey rendered else rendered)).map
          (fun kv => "\"" ++ escapeJson kv.1 ++ "\": " ++ kv.2)) ++ "\x7d"

def jdumpList (sk : Bool) : List JsonVal → List String
  | [] => []
  | x :: xs => jdump sk x :: jdumpList sk xs

def jdumpFields (sk : Bool) : List (String × JsonVal) → List (String × String)
  | [] => []
  | (k, v) :: fs => (k, jdump sk v) :: jdumpFields sk fs
end

/-! ## Tool-call records and signatures (`ai_handler.py`, `_tool_signatures`) -/

/-- A tool call as accumulated by the streaming client and consumed by the
agent loop: `\x7bid, name, arguments\x7d` with `arguments` a JSON object. -/
structure ToolCallRec where
  id : String
  name : String
  arguments : List (String × JsonVal)

/-- `AIHandler._tool_signatures`, per element: the signature of one call is
`name + ":" + json.dumps(arguments, sort_keys=True, ensure_ascii=True)`.
(The `except` branch of the source handles unserialisable Python objects,
which cannot arise for `JsonVal`.) -/
def toolCallSignature (name : String) (arguments : List (String × JsonVal)) : String :=
  name ++ ":" ++ jdump true (.jobj arguments)

/-- `AIHandler._tool_signatures` over a list of calls. -/
def toolSignatures (tcs : List ToolCallRec) : List String :=
  tcs.map (fun tc => toolCallSignature tc.name tc.arguments)

/-! ## Sorting helper lemmas -/

instance keyLeTotal {κ β : Type} [LinearOrder κ] :
    IsTotal (κ × β) (fun a b => a.1 ≤ b.1) :=
  ⟨fun a b => le_total a.1 b.1⟩

instance keyLeTrans {κ β : Type} [LinearOrder κ] :
    IsTrans (κ × β) (fun a b => a.1 ≤ b.1) :=
  ⟨fun _ _ _ h₁ h₂ => le_trans h₁ h₂⟩

instance keyLtAntisymm {κ β : Type} [LinearOrder κ] :
    IsAntisymm (κ × β) (fun a b => a.1 < b.1) :=
  ⟨fun _ _ h₁ h₂ => absurd h₂ (lt_asymm h₁)⟩

theorem sortByKey_sorted {κ β : Type} [LinearOrder κ] (l : List (κ × β)) :
    List.Sorted (fun a b => a.1 ≤ b.1) (sortByKey l) :=
  List.sorted_insertionSort _ l

theorem sortByKey_perm {κ β : Type} [LinearOrder κ] (l : List (κ × β)) :
    (sortByKey l).Perm l :=
  List.perm_insertionSort _ l

/-- With pairwise distinct keys, a list sorted by non-strict key order is in
fact sorted by strict key order. -/
theorem sorted_strict_of_nodup_keys {κ β : Type} [LinearOrder κ]
    {l : List (κ × β)} (hs : List.Sorted (fun a b => a.1 ≤ b.1) l)
    (hnd : (l.map Prod.fst).Nodup) :
    List.Sorted (fun a b => a.1 < b.1) l := by
  have hne : List.Pairwise (fun a b : κ × β => a.1 ≠ b.1) l := by
    have := (List.pairwise_map (l := l)).mp hnd
    exact this
  exact (hs.and hne).imp (fun h => lt_of_le_of_ne h.1 h.2)

/-- Sorting by key is invariant under permutation of the input when the keys
are pairwise distinct: the canonical order wipes out any arrival order. -/
theorem sortByKey_eq_of_perm {κ β : Type} [LinearOrder κ]
    {l₁ l₂ : List (κ × β)} (hp : l₁.Perm l₂)
    (hnd : (l₁.map Prod.fst).Nodup) :
    sortByKey l₁ = sortByKey l₂ := by
  have hperm : (sortByKey l₁).Perm (sortByKey l₂) :=
    ((sortByKey_perm l₁).trans hp).trans (sortByKey_perm l₂).symm
  have hnd₁ : ((sortByKey l₁).map Prod.fst).Nodup :=
    (((sortByKey_perm l₁).map Prod.fst).nodup_iff).mpr hnd
  have hnd₂ : ((sortByKey l₂).map Prod.fst).Nodup :=
    ((hperm.map Prod.fst).nodup_iff).mp hnd₁
  exact List.eq_of_perm_of_sorted hperm
    (sorted_strict_of_nodup_keys (sortByKey_sorted l₁) hnd₁)
    (sorted_strict_of_nodup_keys (sortByKey_sorted l₂) hnd₂)

/-- `jdumpFields` is a map over the field list. -/
theorem jdumpFields_eq_map (sk : Bool) (fs : List (String × JsonVal)) :
    jdumpFields sk fs = fs.map (fun kv => (kv.1, jdump sk kv.2)) := by
  induction fs with
  | nil => simp [jdumpFields]
  | cons kv rest ih => cases kv; simp [jdumpFields, ih]

/-- C5 helper: canonical JSON dumps of an object is insensitive to the
insertion order of its (distinct) keys. -/
theorem jdump_jobj_eq_of_perm {a b : List (String × JsonVal)}
    (hperm : a.Perm b) (hnd : (a.map Prod.fst).Nodup) :
    jdump true (.jobj a) = jdump true (.jobj b) := by
  have hpf : (jdumpFields true a).Perm (jdumpFields true b) := by
    rw [jdumpFields_eq_map, jdumpFields_eq_map]
    exact hperm.map _
  have hndf : ((jdumpFields true a).map Prod.fst).Nodup := by
    rw [jdumpFields_eq_map]
    simpa [List.map_map, Function.comp] using hnd
  have : sortByKey (jdumpFields true a) = sortByKey (jdumpFields true b) :=
    sortByKey_eq_of_perm hpf hndf
  simp [jdump, this]

/-- C5: for every tool name and every two argument objects that are
structurally equal but differ in key insertion order (modelled as: the
key/value pair lists are permutations of one another, keys pairwise
distinct as in any Python dict), the derived tool-call signature is
identical, so the two calls collapse to one signature. -/
theorem tool_signature_stable_under_key_order (name : String)
    {a b : List (String × JsonVal)} (hperm : a.Perm b)
    (hnd : (a.map Prod.fst).Nodup) :
    toolCallSignature name a = toolCallSignature name b := by
  unfold toolCallSignature
  rw [jdump_jobj_eq_of_perm hperm hnd]

/-- C5 witness: the two-key object `\x7bpath: "a.py", mode: 7\x7d` written in
both key orders yields one signature. -/
theorem tool_signature_stable_witness :
    ((("path", JsonVal.jstr "a.py") :: ("mode", JsonVal.jint 7) :: []).Perm
      (("mode", JsonVal.jint 7) :: ("path", JsonVal.jstr "a.py") :: [])) ∧
    toolCallSignature "read_file"
        (("path", JsonVal.jstr "a.py") :: ("mode", JsonVal.jint 7) :: []) =
      toolCallSignature "read_file"
        (("mode", JsonVal.jint 7) :: ("path", JsonVal.jstr "a.py") :: []) := by
  refine ⟨List.Perm.swap _ _ _, ?_⟩
  exact tool_signature_stable_under_key_order "read_file"
    (List.Perm.swap _ _ _) (by simp)

/-! ## Tool round orchestrator (`tool_orchestrator.py`, `execute_tools`)

The source dispatches one `asyncio` task per call (admission bounded by a
semaphore of width `max_parallel_tools`), collects them with
`asyncio.gather(..., return_exceptions=True)`, drops items that are
exceptions, sorts the remainder by the original index, and only then applies
side effects.  The scheduler's nondeterminism — which order the concurrent
tasks complete in, and hence which order results become available — is
modelled by an explicit `arrival` permutation of the task indices; the
semaphore bounds in-flight tasks but adds no ordering constraint, so it does
not appear.  Each task's result is an oracle `outcome` indexed by position:
`ok result durationMs`, or `exn` for a task that raised (such an item is an
`Exception` in the gathered list and is dropped by the source, line 50). -/

inductive ToolOutcome where
  | ok (result : String) (durationMs : Nat)
  | exn
  deriving Repr, DecidableEq

/-- One transcript message: role and content, the tool linkage fields used
by role-`tool` messages, and the assistant-message extras (`reasoning`, the
OpenAI-shaped `tool_calls` array rendered as
`(id, function name, json.dumps(arguments))` triples). -/
structure Msg where
  role : String
  content : String
  toolCallId : Option String := none
  name : Option String := none
  reasoning : Option String := none
  toolCalls : List (String × String × String) := []
  deriving Repr, DecidableEq

/-- One UI-facing tool-result event (`ChatScreen.add_tool_result`). -/
structure UiEvent where
  toolCallId : String
  toolName : String
  result : String
  durationMs : Nat
  deriving Repr, DecidableEq

/-- The shared app state the orchestrator mutates: the in-memory transcript
`app.messages`, the pending persistence writes, and the pushed UI events. -/
structure OrchState where
  messages : List Msg
  pendingWrites : List Msg
  ui : List UiEvent
  deriving Repr, DecidableEq

/-- `run_one` under `gather`: the indexed result tuple
`(idx, tool_call, sig, str(result), duration_ms)` for each task that did not
raise, listed in completion (`arrival`) order. -/
def rawResults (calls : List ToolCallRec) (outcome : Nat → ToolOutcome)
    (arrival : List Nat) : List (Nat × ToolCallRec × String × String × Nat) :=
  arrival.filterMap (fun i =>
    match calls[i]? with
    | some tc =>
        match outcome i with
        | .ok r d => some (i, tc, toolCallSignature tc.name tc.arguments, r, d)
        | .exn => none
    | none => none)

/-- Accumulator of the ordered-results loop, lines 55–87 of the source. -/
structure RoundAcc where
  st : OrchState
  failed : List String
  handoffs : Nat
  successes : Nat

/-- Python-set insertion for `failed_in_round.add(sig)`. -/
def addSig (l : List String) (sig : String) : List String :=
  if sig ∈ l then l else l ++ [sig]

/-- The body of the `for _, tc, sig, result, duration_ms in ordered_results`
loop: UI push, handoff application (`_apply_handoff_result` is abstracted as
the oracle `applyHandoff`, since it calls into the external
`app.apply_agent_handoff` collaborator), failure classification, and the
role-`tool` message append.  Side effects happen in list order. -/
def processResults (applyHandoff : String → Bool × String)
    (acc : RoundAcc) : List (Nat × ToolCallRec × String × String × Nat) → RoundAcc
  | [] => acc
  | (_, tc, sig, result, durationMs) :: rest =>
      let st₀ := acc.st
      let st₁ : OrchState :=
        { st₀ with ui := st₀.ui ++ [⟨tc.id, tc.name, result, durationMs⟩] }
      let step : String × Nat × OrchState :=
        if tc.name = "handoff_agent" then
          let ar := applyHandoff result
          if ar.1 then
            (ar.2, acc.handoffs + 1,
              { st₁ with pendingWrites :=
                  st₁.pendingWrites ++ [{ role := "system", content := ar.2 }] })
          else (ar.2, acc.handoffs, st₁)
        else (result, acc.handoffs, st₁)
      let result := step.1
      let failed :=
        if pyStartsWith result "Error:" then addSig acc.failed sig else acc.failed
      let successes :=
        if pyStartsWith result "Error:" then acc.successes else acc.successes + 1
      let toolMsg : Msg :=
        { role := "tool", content := result,
          toolCallId := some tc.id, name := some tc.name }
      let st₂ := step.2.2
      let st₃ := { st₂ with
        messages := st₂.messages ++ [toolMsg],
        pendingWrites := st₂.pendingWrites ++ [toolMsg] }
      processResults applyHandoff ⟨st₃, failed, step.2.1, successes⟩ rest

/-- Return value of `execute_tools`:
`(should_continue, executed_count, failed_signatures, handoff_count,
success_count)` together with the mutated shared state. -/
structure RoundReturn where
  state : OrchState
  continueLoop : Bool
  execCount : Nat
  failedSignatures : List String
  handoffCount : Nat
  successCount : Nat
  deriving Repr

/-- `ToolOrchestrator.execute_tools`: signatures computed per call, all calls
dispatched, exceptions dropped, results sorted back to input order, side
effects applied in that order, `should_continue` true iff at least one call
actually executed. -/
def executeTools (applyHandoff : String → Bool × String)
    (outcome : Nat → ToolOutcome) (arrival : List Nat)
    (calls : List ToolCallRec) (st₀ : OrchState) : RoundReturn :=
  let ordered := sortByKey (rawResults calls outcome arrival)
  let acc := processResults applyHandoff ⟨st₀, [], 0, 0⟩ ordered
  { state := acc.st
    continueLoop := decide (0 < ordered.length)
    execCount := ordered.length
    failedSignatures := acc.failed
    handoffCount := acc.handoffs
    successCount := acc.successes }

/-- Each raw-result item carries its own task index as key, so the keys of
the gathered list form a sublist of the arrival order. -/
theorem rawResults_keys_sublist (calls : List ToolCallRec)
    (outcome : Nat → ToolOutcome) (arrival : List Nat) :
    ((rawResults calls outcome arrival).map Prod.fst).Sublist arrival := by
  induction arrival with
  | nil => simp [rawResults]
  | cons i rest ih =>
      simp only [rawResults, List.filterMap_cons] at *
      cases h : calls[i]? with
      | none => simp [h]; exact ih.cons i
      | some tc =>
          cases ho : outcome i with
          | ok r d => simpa [h, ho] using ih.cons₂ i
          | exn => simp [h, ho]; exact ih.cons i

theorem rawResults_perm (calls : List ToolCallRec) (outcome : Nat → ToolOutcome)
    {a₁ a₂ : List Nat} (hp : a₁.Perm a₂) :
    (rawResults calls outcome a₁).Perm (rawResults calls outcome a₂) :=
  hp.filterMap _

/-- A list whose keys are strictly increasing is already in canonical order:
sorting it by key is the identity. -/
theorem sortByKey_eq_self_of_sorted {κ β : Type} [LinearOrder κ]
    {l : List (κ × β)} (hs : List.Sorted (fun a b => a.1 < b.1) l) :
    sortByKey l = l := by
  have hnd : (l.map Prod.fst).Nodup := by
    refine (List.pairwise_map).mpr ?_
    exact hs.imp (fun h => ne_of_lt h)
  have hnd' : ((sortByKey l).map Prod.fst).Nodup :=
    (((sortByKey_perm l).map Prod.fst).nodup_iff).mpr hnd
  exact List.eq_of_perm_of_sorted (sortByKey_perm l)
    (sorted_strict_of_nodup_keys (sortByKey_sorted l) hnd') hs

/-- Gathering in strictly increasing task order produces a list that is
already sorted by task index. -/
theorem rawResults_sorted (calls : List ToolCallRec) (outcome : Nat → ToolOutcome)
    {arrival : List Nat} (ha : arrival.Pairwise (· < ·)) :
    List.Sorted (fun a b => a.1 < b.1) (rawResults calls outcome arrival) := by
  have hkeys : ((rawResults calls outcome arrival).map Prod.fst).Pairwise (· < ·) :=
    List.Pairwise.sublist (rawResults_keys_sublist calls outcome arrival) ha
  exact (List.pairwise_map).mp hkeys

/-- The role-`tool` message produced for one ordered result: its content is
the handler's result string, routed through handoff application when the call
is an agent handoff. -/
def toolMsgOf (applyHandoff : String → Bool × String)
    (item : Nat × ToolCallRec × String × String × Nat) : Msg :=
  let tc := item.2.1
  let result := item.2.2.2.1
  let content := if tc.name = "handoff_agent" then (applyHandoff result).2 else result
  { role := "tool", content := content,
    toolCallId := some tc.id, name := some tc.name }

/-- The ordered-results loop appends exactly one role-`tool` message per
ordered result, in list order. -/
theorem processResults_messages (applyHandoff : String → Bool × String)
    (items : List (Nat × ToolCallRec × String × String × Nat)) (acc : RoundAcc) :
    (processResults applyHandoff acc items).st.messages =
      acc.st.messages ++ items.map (toolMsgOf applyHandoff) := by
  induction items generalizing acc with
  | nil => simp [processResults]
  | cons item rest ih =>
      obtain ⟨i, tc, sig, result, durationMs⟩ := item
      by_cases hname : tc.name = "handoff_agent"
      · by_cases happ : (applyHandoff result).1
        · simp [processResults, hname, happ, toolMsgOf, ih]
        · simp [processResults, hname, happ, toolMsgOf, ih]
      · simp [processResults, hname, toolMsgOf, ih]

/-- C2: for every batch of tool calls (of size at least two, per the claim)
dispatched concurrently, the orchestrator's entire observable behaviour —
UI pushes, transcript appends, pending writes, handoff application, counters —
is identical to that of in-input-order execution, for every completion
(`arrival`) order; and the role-`tool` messages are appended to the
transcript in the order of the original call list (one message per task that
did not raise). -/
theorem tool_results_restored_to_input_order
    (applyHandoff : String → Bool × String) (outcome : Nat → ToolOutcome)
    (calls : List ToolCallRec) (st₀ : OrchState) (arrival : List Nat)
    (hp : arrival.Perm (List.range calls.length))
    (_hsz : 2 ≤ calls.length) :
    executeTools applyHandoff outcome arrival calls st₀ =
      executeTools applyHandoff outcome (List.range calls.length) calls st₀ ∧
    (executeTools applyHandoff outcome arrival calls st₀).state.messages =
      st₀.messages ++
        (rawResults calls outcome (List.range calls.length)).map
          (toolMsgOf applyHandoff) := by
  have hndarr : arrival.Nodup := hp.nodup_iff.mpr (List.nodup_range _)
  have hndkeys : ((rawResults calls outcome arrival).map Prod.fst).Nodup :=
    (rawResults_keys_sublist calls outcome arrival).nodup hndarr
  have hsorteq : sortByKey (rawResults calls outcome arrival) =
      sortByKey (rawResults calls outcome (List.range calls.length)) :=
    sortByKey_eq_of_perm (rawResults_perm calls outcome hp) hndkeys
  have hcanon : sortByKey (rawResults calls outcome (List.range calls.length)) =
      rawResults calls outcome (List.range calls.length) :=
    sortByKey_eq_self_of_sorted
      (rawResults_sorted calls outcome (List.pairwise_lt_range _))
  have hmain : executeTools applyHandoff outcome arrival calls st₀ =
      executeTools applyHandoff outcome (List.range calls.length) calls st₀ := by
    unfold executeTools
    rw [hsorteq]
  refine ⟨hmain, ?_⟩
  rw [hmain]
  show (executeTools applyHandoff outcome (List.range calls.length) calls st₀).state.messages = _
  unfold executeTools
  simp only [hcanon]
  exact processResults_messages applyHandoff _ _

/-- C2 witness: a two-call batch whose results are collected in reversed
completion order produces the same outcome as in-order collection. -/
theorem tool_results_restored_witness :
    (([1, 0] : List Nat).Perm (List.range 2)) ∧ 2 ≤ 2 ∧
    executeTools (fun s => (false, s)) (fun i => .ok (toString i) i) [1, 0]
        [⟨"c0", "read_file", [("path", .jstr "a.py")]⟩,
         ⟨"c1", "list_files", []⟩] ⟨[], [], []⟩ =
      executeTools (fun s => (false, s)) (fun i => .ok (toString i) i)
        (List.range 2)
        [⟨"c0", "read_file", [("path", .jstr "a.py")]⟩,
         ⟨"c1", "list_files", []⟩] ⟨[], [], []⟩ := by
  refine ⟨by decide, by decide, ?_⟩
  exact (tool_results_restored_to_input_order (fun s => (false, s))
    (fun i => .ok (toString i) i)
    [⟨"c0", "read_file", [("path", .jstr "a.py")]⟩, ⟨"c1", "list_files", []⟩]
    ⟨[], [], []⟩ [1, 0] (by decide) (by decide)).1

/-! ## Agent loop (`ai_handler.py`, `get_response`)

The top-level response driver.  One round: issue a chat request (the stream
for round `r` is the oracle `stream r`, already normalised to the event list
the streaming client yields), accumulate content / reasoning / tool calls,
append one assistant message if the response is non-trivial, and — when tool
calls are present — run a tool round and continue while the orchestrator's
`should_continue` is true.  The loop condition `self.app.is_streaming` stays
true unless the user cancels; the model covers the uncancelled run.  Nothing
in the source consults the returned `_round_failures` signature set or any
round counter, so the recursion is bounded here only by explicit fuel. -/

inductive LoopEvent where
  | reasoning (s : String)
  | content (s : String)
  | toolCall (tc : ToolCallRec)

/-- `response_text`: concatenation of the content deltas, in arrival order. -/
def roundContent (events : List LoopEvent) : String :=
  String.join (events.filterMap (fun e =>
    match e with | .content s => some s | _ => none))

/-- `reasoning_text`: concatenation of the reasoning deltas. -/
def roundReasoning (events : List LoopEvent) : String :=
  String.join (events.filterMap (fun e =>
    match e with | .reasoning s => some s | _ => none))

/-- `tool_calls`: the tool-call events, in arrival order. -/
def roundToolCalls (events : List LoopEvent) : List ToolCallRec :=
  events.filterMap (fun e =>
    match e with | .toolCall tc => some tc | _ => none)

/-- The assistant message built after a stream ends (lines 148–164):
content always present, `reasoning` only when non-empty, `tool_calls`
rendered with `json.dumps(tc["arguments"])` (insertion order, no key sort). -/
def assistantMsg (content reasoning : String) (tcs : List ToolCallRec) : Msg :=
  { role := "assistant", content := content,
    reasoning := if !reasoning.isEmpty then some reasoning else none,
    toolCalls := tcs.map (fun tc =>
      (tc.id, tc.name, jdump false (.jobj tc.arguments))) }

/-- Observable state of one `get_response` run. -/
structure LoopState where
  st : OrchState
  requests : Nat
  planAdvances : Nat
  halted : Bool
  deriving Repr

/-- The `while self.app.is_streaming` loop of `get_response`, one constructor
per round, bounded by fuel (the source has no bound of its own): stream the
round, append the assistant message when non-trivial, break when the round
produced no tool calls, otherwise execute the round's tool batch and continue
iff the orchestrator reports at least one executed call.  `halted` is true
iff the loop exited through one of its `break` statements. -/
def agentLoopAux (stream : Nat → List LoopEvent)
    (outcome : Nat → Nat → ToolOutcome) (arrival : Nat → List Nat)
    (applyHandoff : String → Bool × String) :
    Nat → Nat → LoopState → LoopState
  | 0, _, ls => ls
  | fuel + 1, round, ls =>
      let events := stream round
      let ls₁ : LoopState := { ls with requests := ls.requests + 1 }
      let content := roundContent events
      let reasoning := roundReasoning events
      let tcs := roundToolCalls events
      let msg := assistantMsg content reasoning tcs
      let ls₂ : LoopState :=
        if !(pyStrip content).isEmpty || !reasoning.isEmpty || !tcs.isEmpty then
          { ls₁ with st := { ls₁.st with
              messages := ls₁.st.messages ++ [msg],
              pendingWrites := ls₁.st.pendingWrites ++ [msg] } }
        else ls₁
      if tcs.isEmpty then { ls₂ with halted := true }
      else
        let rr := executeTools applyHandoff (outcome round) (arrival round) tcs ls₂.st
        let ls₃ : LoopState := { ls₂ with
          st := rr.state,
          planAdvances := ls₂.planAdvances + (if 0 < rr.successCount then 1 else 0) }
        if rr.continueLoop then
          agentLoopAux stream outcome arrival applyHandoff fuel (round + 1) ls₃
        else { ls₃ with halted := true }

def agentLoop (stream : Nat → List LoopEvent)
    (outcome : Nat → Nat → ToolOutcome) (arrival : Nat → List Nat)
    (applyHandoff : String → Bool × String) (fuel : Nat) : LoopState :=
  agentLoopAux stream outcome arrival applyHandoff fuel 0 ⟨⟨[], [], []⟩, 0, 0, false⟩

/-- The single repeated call of the C1 scenario. -/
def repeatCall : ToolCallRec :=
  ⟨"call_1", "read_file", [("path", .jstr "a.py")]⟩

/-- A model that emits the very same single tool call in every round. -/
def repeatStream : Nat → List LoopEvent := fun _ => [.toolCall repeatCall]

/-- C1: the claim (and `prompts/system.py` lines 11–12, and the unused
`TOOL_MAX_ROUNDS`/`TOOL_MAX_PER_ROUND` constants of `runtime_config.py`)
require the loop to halt after the second round when consecutive rounds
repeat an identical tool-call signature, and never exceed a maximum round
count.  The code has no such guard: `get_response` discards the
`failed_signatures` component and loops on `should_continue` alone, which is
true whenever at least one call executed.  Against a model that emits the
same single call (hence the same signature) every round and a tool that
always succeeds, five rounds of fuel yield five chat requests — in
particular a third request is issued after two identical rounds — and the
loop is still not halted. -/
theorem agent_loop_lacks_repeat_guard :
    toolSignatures (roundToolCalls (repeatStream 0)) =
      toolSignatures (roundToolCalls (repeatStream 1)) ∧
    (agentLoop repeatStream (fun _ _ => .ok "contents" 5) (fun _ => [0])
        (fun s => (false, s)) 5).requests = 5 ∧
    (agentLoop repeatStream (fun _ _ => .ok "contents" 5) (fun _ => [0])
        (fun s => (false, s)) 5).halted = false := by
  refine ⟨rfl, ?_, ?_⟩ <;> decide

/-! ## Streaming chat client — delta accumulation
(`http_service.py`, `chat`, streaming branch, lines 199–253)

A streamed completion is a sequence of chunks.  A chunk with no choices is a
trailing usage-only frame; otherwise its delta may carry a reasoning
fragment, a content fragment, and tool-call fragments.  Tool-call fragments
accumulate per provider-supplied index into an insertion-ordered dictionary;
only after the stream ends is one `tool_call` event per accumulated entry
yielded, its concatenated arguments string parsed by `json.loads` (the
oracle `parse`; `none` models a `JSONDecodeError`). -/

structure FuncDelta where
  name : Option String
  arguments : Option String
  deriving Repr, DecidableEq

structure ToolDelta where
  index : Nat
  id : Option String
  func : Option FuncDelta
  deriving Repr, DecidableEq

structure Delta where
  reasoning : Option String
  content : Option String
  toolCalls : List ToolDelta
  deriving Repr, DecidableEq

inductive Chunk where
  | noChoices (usage : Option (Nat × Nat))
  | choice (d : Delta)
  deriving Repr, DecidableEq

inductive ChatEvent where
  | reasoning (s : String)
  | content (s : String)
  | toolCall (id : Option String) (name : String) (arguments : JsonVal)
  deriving Repr

def ChatEvent.isToolCallEvent : ChatEvent → Bool
  | .toolCall _ _ _ => true
  | _ => false

/-- Python truthiness of an optional string: `None` and `""` are falsy. -/
def optTruthy : Option String → Bool
  | some s => !s.isEmpty
  | none => false

/-- One accumulator entry: `\x7b"id": ..., "name": "", "arguments": ""\x7d`. -/
structure AccEntry where
  id : Option String
  name : String
  arguments : String
  deriving Repr, DecidableEq

/-- The per-fragment mutation of an entry (lines 229–237): a non-empty `id`
overwrites, and when `tc.function` is present its non-empty name and
arguments fragments are appended. -/
def applyToolDelta (e : AccEntry) (td : ToolDelta) : AccEntry :=
  let e₁ : AccEntry := if optTruthy td.id then { e with id := td.id } else e
  match td.func with
  | none => e₁
  | some f =>
      let e₂ : AccEntry :=
        match f.name with
        | some n => if !n.isEmpty then { e₁ with name := e₁.name ++ n } else e₁
        | none => e₁
      match f.arguments with
      | some a => if !a.isEmpty then { e₂ with arguments := e₂.arguments ++ a } else e₂
      | none => e₂

/-- One tool-call fragment against the accumulator dictionary: a fresh index
appends a new entry initialised with the fragment's raw `id` (line 223–228),
then the fragment's mutations are applied to its entry.  Creating and then
immediately mutating the fresh entry is folded into one `applyToolDelta`. -/
def accUpdate (acc : List (Nat × AccEntry)) (td : ToolDelta) : List (Nat × AccEntry) :=
  if (List.lookup td.index acc).isSome then
    acc.map (fun p => if p.1 = td.index then (p.1, applyToolDelta p.2 td) else p)
  else
    acc ++ [(td.index, applyToolDelta ⟨td.id, "", ""⟩ td)]

/-- Running state of the streaming loop: the accumulator dictionary, the
last-seen usage counters, and the inline events yielded so far. -/
structure StreamState where
  acc : List (Nat × AccEntry)
  inputTokens : Nat
  outputTokens : Nat
  events : List ChatEvent
  deriving Repr

/-- One iteration of `async for chunk in response` (lines 201–237). -/
def processChunk (st : StreamState) (c : Chunk) : StreamState :=
  match c with
  | .noChoices usage =>
      match usage with
      | some u => { st with inputTokens := u.1, outputTokens := u.2 }
      | none => st
  | .choice d =>
      let st₁ : StreamState :=
        match d.reasoning with
        | some s =>
            if !s.isEmpty then { st with events := st.events ++ [.reasoning s] } else st
        | none => st
      let st₂ : StreamState :=
        match d.content with
        | some s =>
            if !s.isEmpty then { st₁ with events := st₁.events ++ [.content s] } else st₁
        | none => st₁
      { st₂ with acc := d.toolCalls.foldl accUpdate st₂.acc }

/-- Finalisation of one accumulated arguments string (lines 240–253): empty
string short-circuits to `\x7b\x7d`, a parse failure falls back to `\x7b\x7d`
instead of raising. -/
def finalizeArgs (parse : String → Option JsonVal) (a : String) : JsonVal :=
  if a.isEmpty then .jobj []
  else
    match parse a with
    | some v => v
    | none => .jobj []

def toolEventsOf (parse : String → Option JsonVal)
    (acc : List (Nat × AccEntry)) : List ChatEvent :=
  acc.map (fun p => .toolCall p.2.id p.2.name (finalizeArgs parse p.2.arguments))

/-- The full streaming branch: the yielded event sequence (inline reasoning
and content events in arrival order, then the accumulated tool-call events)
and the captured usage counters. -/
def streamChat (parse : String → Option JsonVal) (chunks : List Chunk) :
    List ChatEvent × Nat × Nat :=
  let st := chunks.foldl processChunk ⟨[], 0, 0, []⟩
  (st.events ++ toolEventsOf parse st.acc, st.inputTokens, st.outputTokens)

/-! ### Declarative (specification-side) description of the accumulation

The claim describes the result per index: fragments grouped by
provider-supplied index, one event per index in first-seen order, name and
arguments concatenated across frames.  The definitions below follow those
words (they are the comparison point of the refinement, not a copy of the
source's fold). -/

/-- All tool-call fragments of a stream, in arrival order. -/
def deltasOf (chunks : List Chunk) : List ToolDelta :=
  chunks.flatMap (fun c =>
    match c with
    | .noChoices _ => []
    | .choice d => d.toolCalls)

def firstSeenStep (acc : List Nat) (i : Nat) : List Nat :=
  if i ∈ acc then acc else acc ++ [i]

/-- The indices of a fragment sequence, each kept at its first occurrence. -/
def firstSeenIdx (l : List Nat) : List Nat :=
  l.foldl firstSeenStep []

/-- The fragments carrying a given index, in arrival order. -/
def fragmentsAt (tds : List ToolDelta) (i : Nat) : List ToolDelta :=
  tds.filter (fun td => td.index = i)

/-- The non-empty name fragment of one delta, if any. -/
def nameFrag (td : ToolDelta) : Option String :=
  match td.func with
  | some f =>
      match f.name with
      | some n => if !n.isEmpty then some n else none
      | none => none
  | none => none

/-- The non-empty arguments fragment of one delta, if any. -/
def argsFrag (td : ToolDelta) : Option String :=
  match td.func with
  | some f =>
      match f.arguments with
      | some a => if !a.isEmpty then some a else none
      | none => none
  | none => none

/-- The non-empty id fragment of one delta, if any. -/
def idFrag (td : ToolDelta) : Option String :=
  match td.id with
  | some s => if !s.isEmpty then some s else none
  | none => none

/-- Specification-side name of one accumulated call: the concatenation of its
non-empty name fragments, in arrival order. -/
def specName (frs : List ToolDelta) : String :=
  String.join (frs.filterMap nameFrag)

/-- Specification-side arguments string: concatenation of the non-empty
arguments fragments, in arrival order. -/
def specArgs (frs : List ToolDelta) : String :=
  String.join (frs.filterMap argsFrag)

/-- Specification-side id under the behaviour the code implements: the LAST
non-empty id fragment, falling back to the first fragment's raw id. -/
def specLastId (frs : List ToolDelta) : Option String :=
  match (frs.filterMap idFrag).getLast? with
  | some s => some s
  | none =>
      match frs.head? with
      | some td => td.id
      | none => none

/-- Specification-side id under the claim's words: the FIRST non-empty id
fragment. -/
def specFirstId (frs : List ToolDelta) : Option String :=
  (frs.filterMap idFrag).head?

/-- Specification-side accumulated entry for one index. -/
def specEntryOf (tds : List ToolDelta) (i : Nat) : AccEntry :=
  ⟨specLastId (fragmentsAt tds i), specName (fragmentsAt tds i),
    specArgs (fragmentsAt tds i)⟩

/-- Specification-side accumulator: one entry per index, in first-seen
order. -/
def specAcc (tds : List ToolDelta) : List (Nat × AccEntry) :=
  (firstSeenIdx (tds.map (fun td => td.index))).map (fun i => (i, specEntryOf tds i))

/-- The inline (reasoning and content) events of one chunk. -/
def inlineOf (c : Chunk) : List ChatEvent :=
  match c with
  | .noChoices _ => []
  | .choice d =>
      (match d.reasoning with
       | some s => if !s.isEmpty then [ChatEvent.reasoning s] else []
       | none => []) ++
      (match d.content with
       | some s => if !s.isEmpty then [ChatEvent.content s] else []
       | none => [])

/-- The inline (reasoning and content) events of a stream, in arrival
order. -/
def inlineEvents (chunks : List Chunk) : List ChatEvent :=
  chunks.flatMap inlineOf

/-! ### Refinement: the accumulator fold agrees with the per-index description -/

theorem strJoin_foldl (l : List String) (s : String) :
    l.foldl (fun r t => r ++ t) s = s ++ String.join l := by
  induction l generalizing s with
  | nil => simp [String.join]
  | cons x xs ih =>
      show xs.foldl (fun r t => r ++ t) (s ++ x) = _
      rw [ih]
      show (s ++ x) ++ String.join xs = s ++ (List.foldl (fun r t => r ++ t) "" (x :: xs))
      show (s ++ x) ++ String.join xs = s ++ (List.foldl (fun r t => r ++ t) ("" ++ x) xs)
      rw [ih]
      simp [String.append_assoc]

theorem strJoin_append (a b : List String) :
    String.join (a ++ b) = String.join a ++ String.join b := by
  show (a ++ b).foldl (fun r t => r ++ t) "" = _
  rw [List.foldl_append, strJoin_foldl, strJoin_foldl]
  simp

theorem firstSeenIdx_concat (l : List Nat) (i : Nat) :
    firstSeenIdx (l ++ [i]) = firstSeenStep (firstSeenIdx l) i := by
  simp [firstSeenIdx, List.foldl_append]

theorem mem_foldl_firstSeen (l : List Nat) (acc : List Nat) (i : Nat) :
    i ∈ l.foldl firstSeenStep acc ↔ i ∈ acc ∨ i ∈ l := by
  induction l generalizing acc with
  | nil => simp
  | cons j rest ih =>
      show i ∈ rest.foldl firstSeenStep (firstSeenStep acc j) ↔ _
      rw [ih]
      unfold firstSeenStep
      by_cases hj : j ∈ acc
      · simp only [if_pos hj, List.mem_cons]
        constructor
        · rintro (h | h)
          · exact Or.inl h
          · exact Or.inr (Or.inr h)
        · rintro (h | h | h)
          · exact Or.inl h
          · exact Or.inl (h ▸ hj)
          · exact Or.inr h
      · simp only [if_neg hj, List.mem_append, List.mem_singleton, List.mem_cons]
        tauto

theorem mem_firstSeenIdx (l : List Nat) (i : Nat) :
    i ∈ firstSeenIdx l ↔ i ∈ l := by
  unfold firstSeenIdx
  rw [mem_foldl_firstSeen]
  simp

theorem lookup_keyMap (F : List Nat) (g : Nat → AccEntry) (j : Nat) :
    List.lookup j (F.map (fun i => (i, g i))) =
      if j ∈ F then some (g j) else none := by
  induction F with
  | nil => simp [List.lookup]
  | cons i rest ih =>
      simp only [List.map_cons, List.lookup, List.mem_cons]
      by_cases hji : j = i
      · subst hji
        simp [ih]
      · have : (j == i) = false := by simpa using hji
        simp [this, ih, hji]

theorem fragmentsAt_concat (tds : List ToolDelta) (td : ToolDelta) (i : Nat) :
    fragmentsAt (tds ++ [td]) i =
      fragmentsAt tds i ++ (if td.index = i then [td] else []) := by
  unfold fragmentsAt
  rw [List.filter_append]
  congr 1
  by_cases h : td.index = i <;> simp [h]

theorem fragmentsAt_nil_of_not_mem {tds : List ToolDelta} {i : Nat}
    (h : i ∉ tds.map (fun td => td.index)) :
    fragmentsAt tds i = [] := by
  unfold fragmentsAt
  rw [List.filter_eq_nil_iff]
  intro td htd hidx
  exact h (List.mem_map.mpr ⟨td, htd, by simpa using hidx⟩)

theorem fragmentsAt_ne_nil_of_mem {tds : List ToolDelta} {i : Nat}
    (h : i ∈ tds.map (fun td => td.index)) :
    fragmentsAt tds i ≠ [] := by
  obtain ⟨td, htd, hidx⟩ := List.mem_map.mp h
  unfold fragmentsAt
  intro hnil
  have : td ∈ List.filter (fun td => decide (td.index = i)) tds :=
    List.mem_filter.mpr ⟨htd, by simpa using hidx⟩
  rw [hnil] at this
  exact (List.not_mem_nil td) this

theorem idFrag_of_truthy {td : ToolDelta} (h : optTruthy td.id = true) :
    idFrag td = td.id := by
  cases hid : td.id with
  | none => rw [hid] at h; exact absurd h (by simp [optTruthy])
  | some s =>
      rw [hid] at h
      simp only [optTruthy] at h
      simp [idFrag, hid, h]

theorem idFrag_of_not_truthy {td : ToolDelta} (h : optTruthy td.id = false) :
    idFrag td = none := by
  cases hid : td.id with
  | none => simp [idFrag, hid]
  | some s =>
      rw [hid] at h
      simp only [optTruthy] at h
      simp [idFrag, hid, h]

theorem specLastId_concat {frs : List ToolDelta} (td : ToolDelta)
    (h : frs ≠ []) :
    specLastId (frs ++ [td]) =
      if optTruthy td.id then td.id else specLastId frs := by
  unfold specLastId
  rw [List.filterMap_append]
  by_cases ht : optTruthy td.id
  · rw [if_pos ht]
    cases hid : td.id with
    | none => rw [hid] at ht; simp [optTruthy] at ht
    | some s =>
        have : idFrag td = some s := by rw [idFrag_of_truthy ht, hid]
        simp [this, List.getLast?_append]
  · rw [if_neg ht]
    have : idFrag td = none := idFrag_of_not_truthy (by simpa using ht)
    simp only [this, List.filterMap_cons, List.filterMap_nil, List.append_nil]
    cases hlast : (frs.filterMap idFrag).getLast? with
    | some s => simp
    | none =>
        simp only []
        cases frs with
        | nil => exact absurd rfl h
        | cons a rest => simp

theorem specName_concat (frs : List ToolDelta) (td : ToolDelta) :
    specName (frs ++ [td]) =
      specName frs ++
        (match nameFrag td with | some n => n | none => "") := by
  unfold specName
  rw [List.filterMap_append]
  cases hn : nameFrag td with
  | some n => simp [strJoin_append, hn, String.join]
  | none => simp [strJoin_append, hn, String.join]

theorem specArgs_concat (frs : List ToolDelta) (td : ToolDelta) :
    specArgs (frs ++ [td]) =
      specArgs frs ++
        (match argsFrag td with | some a => a | none => "") := by
  unfold specArgs
  rw [List.filterMap_append]
  cases ha : argsFrag td with
  | some a => simp [strJoin_append, ha, String.join]
  | none => simp [strJoin_append, ha, String.join]

theorem specLastId_single (td : ToolDelta) : specLastId [td] = td.id := by
  unfold specLastId
  by_cases hid : optTruthy td.id
  · rw [List.filterMap_cons]
    rw [idFrag_of_truthy hid]
    cases h : td.id with
    | none => rw [h] at hid; simp [optTruthy] at hid
    | some s => simp
  · rw [List.filterMap_cons]
    rw [idFrag_of_not_truthy (by simpa using hid)]
    simp

/-- Field-wise description of one fragment application. -/
theorem applyToolDelta_id (e : AccEntry) (td : ToolDelta) :
    (applyToolDelta e td).id = if optTruthy td.id then td.id else e.id := by
  unfold applyToolDelta
  repeat' split
  all_goals simp_all

theorem applyToolDelta_name (e : AccEntry) (td : ToolDelta) :
    (applyToolDelta e td).name =
      e.name ++ (match nameFrag td with | some n => n | none => "") := by
  unfold applyToolDelta nameFrag
  repeat' split
  all_goals simp_all

theorem applyToolDelta_args (e : AccEntry) (td : ToolDelta) :
    (applyToolDelta e td).arguments =
      e.arguments ++ (match argsFrag td with | some a => a | none => "") := by
  unfold applyToolDelta argsFrag
  repeat' split
  all_goals simp_all

theorem accEntry_ext {a b : AccEntry} (h₁ : a.id = b.id) (h₂ : a.name = b.name)
    (h₃ : a.arguments = b.arguments) : a = b := by
  cases a; cases b; simp_all

/-- The first fragment of a fresh index both creates and mutates its entry;
the result matches the per-index description applied to that one fragment. -/
theorem applyToolDelta_single (td : ToolDelta) :
    applyToolDelta ⟨td.id, "", ""⟩ td =
      ⟨specLastId [td], specName [td], specArgs [td]⟩ := by
  refine accEntry_ext ?_ ?_ ?_
  · rw [applyToolDelta_id, specLastId_single]
    by_cases hid : optTruthy td.id <;> simp [hid]
  · rw [applyToolDelta_name]
    unfold specName
    cases hn : nameFrag td <;> simp [hn, String.join]
  · rw [applyToolDelta_args]
    unfold specArgs
    cases ha : argsFrag td <;> simp [ha, String.join]

/-- Appending one more fragment for an already-seen index agrees with the
per-index description. -/
theorem applyToolDelta_spec (frs : List ToolDelta) (td : ToolDelta)
    (h : frs ≠ []) :
    applyToolDelta ⟨specLastId frs, specName frs, specArgs frs⟩ td =
      ⟨specLastId (frs ++ [td]), specName (frs ++ [td]), specArgs (frs ++ [td])⟩ := by
  refine accEntry_ext ?_ ?_ ?_
  · rw [applyToolDelta_id, specLastId_concat td h]
  · rw [applyToolDelta_name, specName_concat]
  · rw [applyToolDelta_args, specArgs_concat]

/-- The accumulator step refines the per-index description: updating the
canonical accumulator of `pre` with one more fragment yields the canonical
accumulator of `pre ++ [td]`. -/
theorem accUpdate_specAcc (pre : List ToolDelta) (td : ToolDelta) :
    accUpdate (specAcc pre) td = specAcc (pre ++ [td]) := by
  have hlk : List.lookup td.index (specAcc pre) =
      if td.index ∈ firstSeenIdx (pre.map (fun td => td.index)) then
        some (specEntryOf pre td.index)
      else none :=
    lookup_keyMap _ _ _
  unfold accUpdate
  by_cases hmem : td.index ∈ pre.map (fun td => td.index)
  · have hmemF : td.index ∈ firstSeenIdx (pre.map (fun td => td.index)) :=
      (mem_firstSeenIdx _ _).mpr hmem
    rw [hlk, if_pos hmemF]
    simp only [Option.isSome_some, if_true]
    unfold specAcc
    rw [List.map_map, List.map_append]
    simp only [List.map_cons, List.map_nil]
    rw [firstSeenIdx_concat]
    unfold firstSeenStep
    rw [if_pos hmemF]
    refine List.map_congr_left ?_
    intro i hiF
    have hi : i ∈ pre.map (fun td => td.index) := (mem_firstSeenIdx _ _).mp hiF
    by_cases hit : i = td.index
    · have hfr : fragmentsAt (pre ++ [td]) i = fragmentsAt pre i ++ [td] := by
        rw [fragmentsAt_concat, if_pos hit.symm]
      show (if i = td.index then (i, applyToolDelta (specEntryOf pre i) td)
            else (i, specEntryOf pre i)) = (i, specEntryOf (pre ++ [td]) i)
      rw [if_pos hit]
      unfold specEntryOf
      rw [hfr, applyToolDelta_spec _ _ (fragmentsAt_ne_nil_of_mem hi)]
    · have hfr : fragmentsAt (pre ++ [td]) i = fragmentsAt pre i := by
        rw [fragmentsAt_concat, if_neg (fun h => hit h.symm)]
        simp
      show (if i = td.index then (i, applyToolDelta (specEntryOf pre i) td)
            else (i, specEntryOf pre i)) = (i, specEntryOf (pre ++ [td]) i)
      rw [if_neg hit]
      unfold specEntryOf
      rw [hfr]
  · have hmemF : td.index ∉ firstSeenIdx (pre.map (fun td => td.index)) :=
      fun h => hmem ((mem_firstSeenIdx _ _).mp h)
    rw [hlk, if_neg hmemF]
    simp only [Option.isSome_none, Bool.false_eq_true, if_false]
    unfold specAcc
    rw [List.map_append]
    simp only [List.map_cons, List.map_nil]
    rw [firstSeenIdx_concat]
    unfold firstSeenStep
    rw [if_neg hmemF, List.map_append]
    congr 1
    · refine List.map_congr_left ?_
      intro i hiF
      have hi : i ∈ pre.map (fun td => td.index) := (mem_firstSeenIdx _ _).mp hiF
      have hit : ¬ td.index = i := fun h => hmem (h ▸ hi)
      have hfr : fragmentsAt (pre ++ [td]) i = fragmentsAt pre i := by
        rw [fragmentsAt_concat, if_neg hit]
        simp
      unfold specEntryOf
      rw [hfr]
    · have hfr : fragmentsAt (pre ++ [td]) td.index = [td] := by
        rw [fragmentsAt_concat, if_pos rfl, fragmentsAt_nil_of_not_mem hmem]
        simp
      simp only [List.map_cons, List.map_nil]
      unfold specEntryOf
      rw [hfr, applyToolDelta_single]

theorem foldl_accUpdate_spec (post : List ToolDelta) :
    ∀ pre, post.foldl accUpdate (specAcc pre) = specAcc (pre ++ post) := by
  induction post with
  | nil => intro pre; simp
  | cons td rest ih =>
      intro pre
      show rest.foldl accUpdate (accUpdate (specAcc pre) td) = _
      rw [accUpdate_specAcc, ih (pre ++ [td])]
      simp

/-- The raw left fold of the source's loop equals the canonical per-index
accumulator. -/
theorem accUpdate_fold_spec (tds : List ToolDelta) :
    tds.foldl accUpdate [] = specAcc tds := by
  have h := foldl_accUpdate_spec tds []
  have h0 : specAcc ([] : List ToolDelta) = [] := rfl
  rw [h0] at h
  simpa using h

theorem processChunk_acc (st : StreamState) (c : Chunk) :
    (processChunk st c).acc =
      (match c with
       | .noChoices _ => st.acc
       | .choice d => d.toolCalls.foldl accUpdate st.acc) := by
  cases c with
  | noChoices u => cases u <;> rfl
  | choice d =>
      unfold processChunk
      repeat' split
      all_goals rfl

theorem processChunk_events (st : StreamState) (c : Chunk) :
    (processChunk st c).events = st.events ++ inlineOf c := by
  cases c with
  | noChoices u => cases u <;> simp [processChunk, inlineOf]
  | choice d =>
      unfold processChunk inlineOf
      repeat' split
      all_goals simp

theorem foldl_processChunk_acc (chunks : List Chunk) (st : StreamState) :
    (chunks.foldl processChunk st).acc = (deltasOf chunks).foldl accUpdate st.acc := by
  induction chunks generalizing st with
  | nil => simp [deltasOf]
  | cons c rest ih =>
      show ((rest.foldl processChunk (processChunk st c)).acc) = _
      rw [ih, processChunk_acc]
      cases c with
      | noChoices u => simp [deltasOf]
      | choice d => simp [deltasOf, List.foldl_append]

theorem foldl_processChunk_events (chunks : List Chunk) (st : StreamState) :
    (chunks.foldl processChunk st).events = st.events ++ inlineEvents chunks := by
  induction chunks generalizing st with
  | nil => simp [inlineEvents]
  | cons c rest ih =>
      show ((rest.foldl processChunk (processChunk st c)).events) = _
      rw [ih, processChunk_events]
      simp [inlineEvents]

theorem inlineOf_not_toolCall (c : Chunk) :
    ∀ e ∈ inlineOf c, e.isToolCallEvent = false := by
  intro e he
  cases c with
  | noChoices u => simp [inlineOf] at he
  | choice d =>
      unfold inlineOf at he
      repeat' split at he
      all_goals
        simp only [List.mem_append, List.mem_singleton, List.not_mem_nil,
          or_false, false_or] at he
      all_goals rcases he with rfl | rfl <;> rfl

theorem nodup_foldl_firstSeen (l : List Nat) :
    ∀ acc : List Nat, acc.Nodup → (l.foldl firstSeenStep acc).Nodup := by
  induction l with
  | nil => intro acc h; exact h
  | cons i rest ih =>
      intro acc h
      show (rest.foldl firstSeenStep (firstSeenStep acc i)).Nodup
      refine ih _ ?_
      unfold firstSeenStep
      by_cases hmem : i ∈ acc
      · rw [if_pos hmem]; exact h
      · rw [if_neg hmem]
        simp [List.nodup_append, h, hmem]

theorem firstSeenIdx_nodup (l : List Nat) : (firstSeenIdx l).Nodup :=
  nodup_foldl_firstSeen l [] List.nodup_nil

/-- C3 (amended): in streaming mode, for every delta sequence, tool-call
fragments are accumulated per provider-supplied index — the name and the
arguments string are concatenations of the non-empty fragments in arrival
order, and the id is the LAST non-empty id fragment (initialised from the
first fragment's id) — no tool_call event is yielded until the stream ends,
then exactly one tool_call event per accumulated index is yielded in
first-seen-index order, with the arguments string JSON-parsed and a parse
failure (or an empty accumulated string) yielding empty-object arguments
instead of raising. -/
theorem streaming_accumulation_per_index (parse : String → Option JsonVal)
    (chunks : List Chunk) :
    (streamChat parse chunks).1 =
      inlineEvents chunks ++
        (specAcc (deltasOf chunks)).map
          (fun p => ChatEvent.toolCall p.2.id p.2.name (finalizeArgs parse p.2.arguments)) ∧
    ((inlineEvents chunks).all (fun e => !e.isToolCallEvent)) = true ∧
    (((specAcc (deltasOf chunks)).map
        (fun p => ChatEvent.toolCall p.2.id p.2.name (finalizeArgs parse p.2.arguments))).all
      (fun e => e.isToolCallEvent)) = true ∧
    ((specAcc (deltasOf chunks)).map Prod.fst).Nodup := by
  refine ⟨?_, ?_, ?_, ?_⟩
  · unfold streamChat toolEventsOf
    dsimp only
    rw [foldl_processChunk_events, foldl_processChunk_acc]
    show ([] : List ChatEvent) ++ inlineEvents chunks ++ _ = _
    rw [show (⟨[], 0, 0, []⟩ : StreamState).acc = [] from rfl, accUpdate_fold_spec]
    simp
  · rw [List.all_eq_true]
    intro e he
    have hmem := List.mem_flatMap.mp he
    obtain ⟨c, _, hc⟩ := hmem
    simp [inlineOf_not_toolCall c e hc]
  · rw [List.all_eq_true]
    intro e he
    obtain ⟨p, _, rfl⟩ := List.mem_map.mp he
    rfl
  · unfold specAcc
    rw [List.map_map]
    have : (Prod.fst ∘ fun i => (i, specEntryOf (deltasOf chunks) i)) = id := rfl
    rw [this, List.map_id]
    exact firstSeenIdx_nodup _

/-- The two-frame stream of the C3 counterexample: both fragments are for
index 0, the first carries id "a" and the name, the second carries id "b". -/
def c3Chunks : List Chunk :=
  [.choice ⟨none, none, [⟨0, some "a", some ⟨some "f", none⟩⟩]⟩,
   .choice ⟨none, none, [⟨0, some "b", none⟩]⟩]

/-- C3 counterexample: the claim says the accumulated call's id is taken from
the FIRST non-empty id occurrence; for a stream whose index-0 fragments carry
ids "a" then "b", the first non-empty occurrence is "a", but the code yields
id "b" — each non-empty fragment id overwrites the stored one (line 229–230
of `http_service.py`). -/
theorem streaming_id_last_not_first :
    (streamChat (fun _ => none) c3Chunks).1 =
      [ChatEvent.toolCall (some "b") "f" (.jobj [])] ∧
    specFirstId (fragmentsAt (deltasOf c3Chunks) 0) = some "a" ∧
    (some "b" : Option String) ≠ some "a" := by
  refine ⟨rfl, rfl, by decide⟩

/-! ## Streaming chat client — request issuance, capability fallback and
usage recording (`http_service.py`, `chat`, lines 113–266)

The provider is the oracle `provider n req`: the result of the `n`-th
`chat.completions.create` call of this invocation with request `req`.  A
response is either a stream (its chunks, and optionally an error raised by
the iteration after delivering them) or a single non-streaming response
object. -/

structure ToolDef where
  name : String
  description : String
  inputSchema : Option JsonVal := none
  parameters : Option JsonVal := none

structure OpenAITool where
  name : String
  description : String
  parameters : JsonVal

/-- `_build_tools`: `None` for an empty list, else the provider's
function-calling shape, taking `input_schema` and falling back to
`parameters` and then to `\x7b\x7d`. -/
def buildTools (tools : List ToolDef) : Option (List OpenAITool) :=
  if tools.isEmpty then none
  else some (tools.map (fun t =>
    ⟨t.name, t.description,
      match t.inputSchema with
      | some v => v
      | none =>
          match t.parameters with
          | some v => v
          | none => .jobj []⟩))

/-- `_is_tool_calling_unsupported`. -/
def isToolCallingUnsupported (msg : String) : Bool :=
  (pyContains (pyLower msg) "tool calling" && pyContains (pyLower msg) "not supported")
    || pyContains (pyLower msg) "param\x27: \x27tool calling\x27"

/-- `_is_stream_options_unsupported`. -/
def isStreamOptionsUnsupported (msg : String) : Bool :=
  pyContains (pyLower msg) "stream_options" &&
    (pyContains (pyLower msg) "unsupported" || pyContains (pyLower msg) "not supported"
      || pyContains (pyLower msg) "unknown")

/-- One `chat.completions.create` request, restricted to the fields the
claims concern: the tools payload, whether `stream_options` was sent, and
the stream flag. -/
structure ProviderRequest where
  tools : Option (List OpenAITool)
  streamOptions : Bool
  stream : Bool

/-- A non-streaming response object. -/
structure SyncResponse where
  usage : Option (Nat × Nat)
  reasoning : Option String
  content : Option String
  toolCalls : List (String × String × String)

inductive ProviderResponse where
  | streamResp (chunks : List Chunk) (interrupted : Option String)
  | syncResp (r : SyncResponse)

/-- The request/fallback phase (lines 138–173): first attempt with the
memoized tools decision applied; on failure, one conditional retry — first
precedence to the `stream_options` fallback, else the tool-calling fallback,
which flips the memoized `_tool_calling_disabled` flag before retrying; any
other error propagates.  Returns the requests issued, the flag's new value,
and the outcome. -/
def chatRequestPhase (disabled : Bool) (tools : List ToolDef) (stream : Bool)
    (provider : Nat → ProviderRequest → Except String ProviderResponse) :
    List ProviderRequest × Bool × Except String ProviderResponse :=
  let openaiTools := if disabled then none else buildTools tools
  let req₀ : ProviderRequest := ⟨openaiTools, stream, stream⟩
  match provider 0 req₀ with
  | .ok r => ([req₀], disabled, .ok r)
  | .error e =>
      if req₀.streamOptions && isStreamOptionsUnsupported e then
        let req₁ : ProviderRequest := { req₀ with streamOptions := false }
        ([req₀, req₁], disabled, provider 1 req₁)
      else if openaiTools.isSome && isToolCallingUnsupported e then
        let req₁ : ProviderRequest := { req₀ with tools := none }
        ([req₀, req₁], true, provider 1 req₁)
      else ([req₀], disabled, .error e)

/-- Outcome classification of the whole call: a failure whose text contains
"429" is translated to the distinguished rate-limit error (lines 255–258). -/
inductive ChatOutcome where
  | ok (events : List ChatEvent)
  | rateLimited
  | failed (msg : String)

/-- Result of one whole `chat` invocation. -/
structure ChatResult where
  requests : List ProviderRequest
  disabledAfter : Bool
  outcome : ChatOutcome
  capturedInput : Nat
  capturedOutput : Nat
  usageRecords : List (Nat × Nat)

/-- Non-streaming consumption (lines 175–198): usage from the response
object; at most one reasoning, one content, then the tool calls with
arguments parsed eagerly — a parse failure raises (and is not converted to
empty arguments, unlike the streaming path). -/
def consumeSync (parse : String → Option JsonVal) (r : SyncResponse) :
    Except String (List ChatEvent) :=
  let evs :=
    (match r.reasoning with
     | some s => if !s.isEmpty then [ChatEvent.reasoning s] else []
     | none => []) ++
    (match r.content with
     | some s => if !s.isEmpty then [ChatEvent.content s] else []
     | none => [])
  let rec go (acc : List ChatEvent) :
      List (String × String × String) → Except String (List ChatEvent)
    | [] => .ok acc
    | (id, name, args) :: rest =>
        match parse args with
        | some v => go (acc ++ [.toolCall (some id) name v]) rest
        | none => .error "JSONDecodeError"
  go evs r.toolCalls

/-- The portion of `chat` from the `try` at `http_service.py:131` onward:
request phase, consumption, the outer `except` translating 429, and the
`finally` recording exactly one usage observation — captured token counts
when the provider reported them, else an estimate
`len(str(full_messages)) // 4` (the serialized request size is the parameter
`msgsStrLen`).  The `finally` of the source's async generator runs when the
generator is closed or exhausted; the embedding models a consumed
generator. -/
def chatCallBody (disabled : Bool) (tools : List ToolDef) (stream : Bool)
    (parse : String → Option JsonVal)
    (provider : Nat → ProviderRequest → Except String ProviderResponse)
    (msgsStrLen : Nat) : ChatResult :=
  let phase := chatRequestPhase disabled tools stream provider
  let body : Except String (List ChatEvent) × Nat × Nat :=
    match phase.2.2 with
    | .error e => (.error e, 0, 0)
    | .ok (.streamResp chunks interrupted) =>
        let s := streamChat parse chunks
        match interrupted with
        | some e => (.error e, s.2.1, s.2.2)
        | none => (.ok s.1, s.2.1, s.2.2)
    | .ok (.syncResp r) =>
        let u := match r.usage with
          | some u => u
          | none => (0, 0)
        (consumeSync parse r, u.1, u.2)
  let outcome :=
    match body.1 with
    | .ok evs => ChatOutcome.ok evs
    | .error e =>
        if pyContains e "429" then ChatOutcome.rateLimited else ChatOutcome.failed e
  { requests := phase.1
    disabledAfter := phase.2.1
    outcome := outcome
    capturedInput := body.2.1
    capturedOutput := body.2.2
    usageRecords :=
      [((if body.2.1 ≠ 0 then body.2.1 else msgsStrLen / 4), body.2.2)] }

/-- One whole `chat` invocation.  The guard `if not self.api_key: raise
ValueError(f"No API key for \x7bself.provider_name\x7d.")` at
`http_service.py:120-121` runs BEFORE the `try` of line 131: when the key is
empty the invocation raises at once, the `finally` of lines 259-266 never
runs (so no usage observation is recorded), no request is issued, the
tool-calling flag is untouched, and the outer `except` of lines 255-258 does
not see the exception (it is raised outside the `try`), so no 429
translation applies.  Otherwise the call proceeds as `chatCallBody`. -/
def chatCall (apiKey providerName : String) (disabled : Bool)
    (tools : List ToolDef) (stream : Bool)
    (parse : String → Option JsonVal)
    (provider : Nat → ProviderRequest → Except String ProviderResponse)
    (msgsStrLen : Nat) : ChatResult :=
  if apiKey.data.isEmpty then
    { requests := []
      disabledAfter := disabled
      outcome := .failed ("No API key for " ++ providerName ++ ".")
      capturedInput := 0
      capturedOutput := 0
      usageRecords := [] }
  else chatCallBody disabled tools stream parse provider msgsStrLen

/-- C6: once a chat call on an instance whose tool-calling flag is clear
meets a provider error reporting tool calling as unsupported (and the
stream-options fallback does not fire first), that call is retried exactly
once with tools omitted and the flag is set; and on an instance whose flag
is set, every request of every subsequent call carries no tools, whatever
the tools argument, and the flag stays set. -/
theorem tool_fallback_memoized
    (tools : List ToolDef) (stream : Bool)
    (provider : Nat → ProviderRequest → Except String ProviderResponse)
    (e : String)
    (htools : tools ≠ [])
    (hfirst : provider 0 ⟨buildTools tools, stream, stream⟩ = .error e)
    (hnoso : (stream && isStreamOptionsUnsupported e) = false)
    (htc : isToolCallingUnsupported e = true) :
    (chatRequestPhase false tools stream provider).1 =
      [⟨buildTools tools, stream, stream⟩, ⟨none, stream, stream⟩] ∧
    (chatRequestPhase false tools stream provider).2.1 = true ∧
    (∀ (tools' : List ToolDef) (stream' : Bool)
        (provider' : Nat → ProviderRequest → Except String ProviderResponse),
      (chatRequestPhase true tools' stream' provider').2.1 = true ∧
      ∀ r ∈ (chatRequestPhase true tools' stream' provider').1, r.tools = none) := by
  have hsome : (buildTools tools).isSome = true := by
    unfold buildTools
    rw [if_neg (by simpa using htools)]
    rfl
  have h12 : (chatRequestPhase false tools stream provider).1 =
        [⟨buildTools tools, stream, stream⟩, ⟨none, stream, stream⟩] ∧
      (chatRequestPhase false tools stream provider).2.1 = true := by
    unfold chatRequestPhase
    simp only [if_neg (Bool.false_ne_true), hfirst]
    rw [show ((⟨buildTools tools, stream, stream⟩ : ProviderRequest).streamOptions
          && isStreamOptionsUnsupported e) = false from hnoso]
    simp only [Bool.false_eq_true, if_false, hsome, htc, Bool.and_self, if_true]
    exact ⟨by trivial, by trivial⟩
  refine ⟨h12.1, h12.2, ?_⟩
  intro tools' stream' provider'
  unfold chatRequestPhase
  simp only [if_pos]
  cases h0 : provider' 0 ⟨none, stream', stream'⟩ with
  | ok r =>
      refine ⟨by trivial, ?_⟩
      intro req hreq
      simp at hreq
      rw [hreq]
  | error e' =>
      by_cases hso : (stream' && isStreamOptionsUnsupported e') = true
      · simp only [hso, if_true]
        refine ⟨trivial, ?_⟩
        intro req hreq
        simp only [List.mem_cons, List.not_mem_nil, or_false] at hreq
        rcases hreq with rfl | rfl <;> rfl
      · simp only [Bool.not_eq_true] at hso
        simp only [hso, Bool.false_eq_true, if_false, Option.isSome_none, Bool.false_and]
        refine ⟨trivial, ?_⟩
        intro req hreq
        simp only [List.mem_cons, List.not_mem_nil, or_false] at hreq
        rw [hreq]

/-- C6 witness: a one-tool client whose provider rejects tool calling on the
first attempt. -/
theorem tool_fallback_memoized_witness :
    ((⟨"read_file", "reads a file", none, none⟩ : ToolDef) :: []) ≠ [] ∧
    (fun (n : Nat) (_ : ProviderRequest) =>
        if n = 0 then (Except.error "tool calling is not supported" :
          Except String ProviderResponse)
        else .ok (.streamResp [] none)) 0
        ⟨buildTools [⟨"read_file", "reads a file", none, none⟩], true, true⟩ =
      .error "tool calling is not supported" ∧
    (true && isStreamOptionsUnsupported "tool calling is not supported") = false ∧
    isToolCallingUnsupported "tool calling is not supported" = true ∧
    (chatRequestPhase false [⟨"read_file", "reads a file", none, none⟩] true
        (fun n _ =>
          if n = 0 then .error "tool calling is not supported"
          else .ok (.streamResp [] none))).2.1 = true := by
  refine ⟨List.cons_ne_nil _ _, rfl, by decide, by decide, ?_⟩
  exact (tool_fallback_memoized [⟨"read_file", "reads a file", none, none⟩] true
    (fun n _ =>
      if n = 0 then .error "tool calling is not supported"
      else .ok (.streamResp [] none))
    "tool calling is not supported"
    (List.cons_ne_nil _ _) rfl (by decide) (by decide)).2.1

/-- C7 counterexample: an invocation of `chat` with an empty API key raises
the `ValueError` of `http_service.py:120-121` before the `try/finally` of
lines 131-266 is entered, so the finalizer never runs and ZERO usage
observations are recorded — refuting, at this concrete input, the claim
that every invocation (completing or raising) appends exactly one usage
observation. -/
theorem usage_record_skipped_without_key :
    (chatCall "" "openai" false [] true (fun _ => none)
        (fun _ _ => .ok (.streamResp [] none)) 40).usageRecords.length = 0 ∧
    (chatCall "" "openai" false [] true (fun _ => none)
        (fun _ _ => .ok (.streamResp [] none)) 40).outcome =
      .failed "No API key for openai." ∧
    (0 : Nat) ≠ 1 := by
  refine ⟨rfl, rfl, by decide⟩

/-- C7 (amended): every invocation of `chat` that passes the initial
API-key guard of `http_service.py:120-121` (a non-empty `api_key`), whether
it completes successfully or raises (provider error on any attempt, rate
limiting, a mid-stream abort, or a non-streaming parse failure), appends
exactly one usage observation: the captured provider-reported token counts
when present, otherwise the estimate `len(str(full_messages)) // 4` for the
input side.  With an empty key the pre-`try` `ValueError` skips the
`finally` and nothing is recorded. -/
theorem usage_recorded_once_with_key (apiKey providerName : String)
    (disabled : Bool) (tools : List ToolDef)
    (stream : Bool) (parse : String → Option JsonVal)
    (provider : Nat → ProviderRequest → Except String ProviderResponse)
    (msgsStrLen : Nat) (hkey : apiKey.data.isEmpty = false) :
    (chatCall apiKey providerName disabled tools stream parse provider
        msgsStrLen).usageRecords.length = 1 ∧
    ((chatCall apiKey providerName disabled tools stream parse provider
        msgsStrLen).capturedInput ≠ 0 →
      (chatCall apiKey providerName disabled tools stream parse provider
          msgsStrLen).usageRecords =
        [((chatCall apiKey providerName disabled tools stream parse provider
            msgsStrLen).capturedInput,
          (chatCall apiKey providerName disabled tools stream parse provider
            msgsStrLen).capturedOutput)]) ∧
    ((chatCall apiKey providerName disabled tools stream parse provider
        msgsStrLen).capturedInput = 0 →
      (chatCall apiKey providerName disabled tools stream parse provider
          msgsStrLen).usageRecords =
        [(msgsStrLen / 4,
          (chatCall apiKey providerName disabled tools stream parse provider
            msgsStrLen).capturedOutput)]) := by
  have hcall : chatCall apiKey providerName disabled tools stream parse provider
      msgsStrLen = chatCallBody disabled tools stream parse provider msgsStrLen := by
    unfold chatCall
    rw [hkey]
    simp only [Bool.false_eq_true, if_false]
  rw [hcall]
  refine ⟨rfl, ?_, ?_⟩ <;> intro h
  · show [(if (chatCallBody disabled tools stream parse provider msgsStrLen).capturedInput ≠ 0
        then (chatCallBody disabled tools stream parse provider msgsStrLen).capturedInput
        else msgsStrLen / 4,
        (chatCallBody disabled tools stream parse provider msgsStrLen).capturedOutput)] = _
    rw [if_pos h]
  · show [(if (chatCallBody disabled tools stream parse provider msgsStrLen).capturedInput ≠ 0
        then (chatCallBody disabled tools stream parse provider msgsStrLen).capturedInput
        else msgsStrLen / 4,
        (chatCallBody disabled tools stream parse provider msgsStrLen).capturedOutput)] = _
    rw [if_neg (by simpa using h)]

/-- C7 witness: with the non-empty key `sk-test`, a streamed completion that
reports usage `(5, 7)` in a trailing frame records exactly one observation,
carrying the reported counts. -/
theorem usage_recorded_once_with_key_witness :
    ("sk-test" : String).data.isEmpty = false ∧
    (chatCall "sk-test" "openai" false [] true (fun _ => none)
        (fun _ _ => .ok (.streamResp [Chunk.noChoices (some (5, 7))] none))
        40).usageRecords.length = 1 := by
  refine ⟨by decide, ?_⟩
  exact (usage_recorded_once_with_key "sk-test" "openai" false [] true (fun _ => none)
    (fun _ _ => .ok (.streamResp [Chunk.noChoices (some (5, 7))] none)) 40
    (by decide)).1

/-! ## Tool registry and executor (`tool_manager.py`)

Python argument values are modelled by `PyVal` (floats carry an integer
payload — see the file header — and `bool` is a separate constructor, so the
source's explicit `not isinstance(value, bool)` exclusions are represented by
the constructor split).  The regex engine is the oracle `reSearch`: `none`
models a malformed pattern (`re.error`, ignored), `some b` whether
`re.search` found a match.  A handler either returns a value (stringified
with `str`) or raises. -/

inductive PyVal where
  | pnone
  | pbool (b : Bool)
  | pint (n : Int)
  | pfloat (q : Int)
  | pstr (s : String)
  | plist (xs : List PyVal)
  | pdict (fs : List (String × PyVal))
  deriving Repr, Inhabited

/-- `type(v).__name__`. -/
def pyTypeName : PyVal → String
  | .pnone => "NoneType"
  | .pbool _ => "bool"
  | .pint _ => "int"
  | .pfloat _ => "float"
  | .pstr _ => "str"
  | .plist _ => "list"
  | .pdict _ => "dict"

mutual
/-- `str(v)` (`q` false) and `repr(v)` (`q` true, quoting strings), as used
by `', '.join(map(str, enum))`. -/
def pyStrQ (q : Bool) : PyVal → String
  | .pnone => "None"
  | .pbool b => if b then "True" else "False"
  | .pint n => toString n
  | .pfloat n => toString n
  | .pstr s => if q then "\x27" ++ s ++ "\x27" else s
  | .plist xs => "[" ++ String.intercalate ", " (pyStrList xs) ++ "]"
  | .pdict fs => "\x7b" ++ String.intercalate ", " (pyStrFields fs) ++ "\x7d"

def pyStrList : List PyVal → List String
  | [] => []
  | x :: xs => pyStrQ true x :: pyStrList xs

def pyStrFields : List (String × PyVal) → List String
  | [] => []
  | (k, v) :: fs => ("\x27" ++ k ++ "\x27: " ++ pyStrQ true v) :: pyStrFields fs
end

def pyStr (v : PyVal) : String := pyStrQ false v

/-- Python numeric view: `isinstance(value, (int, float))` admits booleans
(`True == 1`). -/
def numericOf : PyVal → Option Int
  | .pbool b => some (if b then 1 else 0)
  | .pint n => some n
  | .pfloat q => some q
  | _ => none

mutual
/-- Python `==`, as used by `value not in enum`: numeric kinds compare by
value, containers element-wise. -/
def pyValEq : PyVal → PyVal → Bool
  | .pnone, .pnone => true
  | .pstr a, .pstr b => a == b
  | .plist a, .plist b => pyValListEq a b
  | .pdict a, .pdict b => pyValFieldsEq a b
  | a, b =>
      match numericOf a, numericOf b with
      | some x, some y => x == y
      | _, _ => false

def pyValListEq : List PyVal → List PyVal → Bool
  | [], [] => true
  | x :: xs, y :: ys => pyValEq x y && pyValListEq xs ys
  | _, _ => false

def pyValFieldsEq : List (String × PyVal) → List (String × PyVal) → Bool
  | [], [] => true
  | (k, v) :: xs, (k', v') :: ys => k == k' && pyValEq v v' && pyValFieldsEq xs ys
  | _, _ => false
end

/-- One property's JSON-schema constraints, the keys `_validate_arguments`
reads. -/
structure PropSchema where
  type : Option String := none
  enum : Option (List PyVal) := none
  minimum : Option Int := none
  maximum : Option Int := none
  minLength : Option Nat := none
  maxLength : Option Nat := none
  pattern : Option String := none
  itemsType : Option String := none

structure ParamsSchema where
  properties : List (String × PropSchema) := []
  required : List String := []

/-- A registered tool's schema dict: `description` and an optional
`parameters` object (a non-dict `parameters` value is `none`). -/
structure ToolSchema where
  description : String := ""
  parameters : Option ParamsSchema := none

def schemaProperties (schema : ToolSchema) : List (String × PropSchema) :=
  match schema.parameters with
  | some p => p.properties
  | none => []

def schemaRequired (schema : ToolSchema) : List String :=
  match schema.parameters with
  | some p => p.required
  | none => []

/-- `_schema_type_matches`. -/
def schemaTypeMatches (v : PyVal) (expected : String) : Bool :=
  if expected == "string" then (match v with | .pstr _ => true | _ => false)
  else if expected == "integer" then (match v with | .pint _ => true | _ => false)
  else if expected == "number" then
    (match v with | .pint _ => true | .pfloat _ => true | _ => false)
  else if expected == "boolean" then (match v with | .pbool _ => true | _ => false)
  else if expected == "array" then (match v with | .plist _ => true | _ => false)
  else if expected == "object" then (match v with | .pdict _ => true | _ => false)
  else true

/-- The per-key constraint checks of `_validate_arguments` (lines 101–156),
in source order, first violation short-circuiting. -/
def checkProp (reSearch : String → String → Option Bool) (name key : String)
    (ps : PropSchema) (v : PyVal) : Option String :=
  let errPre := "Error: Invalid arguments for \x27" ++ name ++ "\x27: "
  if optTruthy ps.type ∧ ¬ schemaTypeMatches v (ps.type.getD "") then
    some (errPre ++ "\x27" ++ key ++ "\x27 must be " ++ ps.type.getD ""
      ++ ", got " ++ pyTypeName v)
  else if (match ps.enum with
      | some es => !es.any (fun w => pyValEq v w)
      | none => false) then
    some (errPre ++ "\x27" ++ key ++ "\x27 must be one of "
      ++ String.intercalate ", " ((ps.enum.getD []).map pyStr))
  else
    match numericOf v with
    | some x =>
        match ps.minimum with
        | some m =>
            if x < m then some (errPre ++ "\x27" ++ key ++ "\x27 must be >= " ++ toString m)
            else
              match ps.maximum with
              | some M =>
                  if M < x then
                    some (errPre ++ "\x27" ++ key ++ "\x27 must be <= " ++ toString M)
                  else none
              | none => none
        | none =>
            match ps.maximum with
            | some M =>
                if M < x then some (errPre ++ "\x27" ++ key ++ "\x27 must be <= " ++ toString M)
                else none
            | none => none
    | none =>
        match v with
        | .pstr s =>
            match ps.minLength with
            | some m =>
                if s.length < m then
                  some (errPre ++ "\x27" ++ key ++ "\x27 length must be >= " ++ toString m)
                else checkStrRest reSearch errPre key ps s
            | none => checkStrRest reSearch errPre key ps s
        | .plist xs =>
            if optTruthy ps.itemsType ∧
                ¬ xs.all (fun w => schemaTypeMatches w (ps.itemsType.getD "")) then
              some (errPre ++ "all \x27" ++ key ++ "\x27 items must be "
                ++ ps.itemsType.getD "")
            else none
        | _ => none
where
  /-- `maxLength` and `pattern` checks for a string value. -/
  checkStrRest (reSearch : String → String → Option Bool) (errPre key : String)
      (ps : PropSchema) (s : String) : Option String :=
    match ps.maxLength with
    | some M =>
        if M < s.length then
          some (errPre ++ "\x27" ++ key ++ "\x27 length must be <= " ++ toString M)
        else checkPattern reSearch errPre key ps s
    | none => checkPattern reSearch errPre key ps s
  /-- the regex check: a malformed pattern (`re.error`) is ignored. -/
  checkPattern (reSearch : String → String → Option Bool) (errPre key : String)
      (ps : PropSchema) (s : String) : Option String :=
    if optTruthy ps.pattern then
      match reSearch (ps.pattern.getD "") s with
      | some false =>
          some (errPre ++ "\x27" ++ key ++ "\x27 does not match required pattern")
      | _ => none
    else none

/-- The `for key, value in arguments.items()` loop: keys outside
`properties` are skipped, the first violation short-circuits. -/
def checkArgItems (reSearch : String → String → Option Bool) (name : String)
    (properties : List (String × PropSchema)) :
    List (String × PyVal) → Option String
  | [] => none
  | (k, v) :: rest =>
      match List.lookup k properties with
      | none => checkArgItems reSearch name properties rest
      | some ps =>
          match checkProp reSearch name k ps v with
          | some e => some e
          | none => checkArgItems reSearch name properties rest

/-- `missing = [key for key in required if key not in arguments]`. -/
def missingKeys (schema : ToolSchema) (args : List (String × PyVal)) : List String :=
  (schemaRequired schema).filter (fun k => (List.lookup k args).isNone)

/-- `unknown = [key for key in arguments if properties and key not in
properties]`: the comprehension's guard makes the check vacuous whenever
`properties` is empty or missing. -/
def unknownKeys (schema : ToolSchema) (args : List (String × PyVal)) : List String :=
  (args.map Prod.fst).filter
    (fun k => !(schemaProperties schema).isEmpty &&
      (List.lookup k (schemaProperties schema)).isNone)

/-- The dict branch of `_validate_arguments`: missing-required, unknown-keys
(only when `properties` is non-empty), then the per-key checks, in that
order, first violation short-circuiting. -/
def validateDict (reSearch : String → String → Option Bool) (name : String)
    (schema : ToolSchema) (args : List (String × PyVal)) :
    Except String (List (String × PyVal)) :=
  if !(missingKeys schema args).isEmpty then
    .error ("Error: Invalid arguments for \x27" ++ name ++ "\x27: missing required "
      ++ String.intercalate ", " (missingKeys schema args))
  else if !(unknownKeys schema args).isEmpty then
    .error ("Error: Invalid arguments for \x27" ++ name
      ++ "\x27: unknown argument(s) " ++ String.intercalate ", " (unknownKeys schema args))
  else
    match checkArgItems reSearch name (schemaProperties schema) args with
    | some e => .error e
    | none => .ok args

/-- `_validate_arguments`: `None` becomes the empty dict; a non-dict value
is rejected; a dict goes through `validateDict`. -/
def validateArguments (reSearch : String → String → Option Bool) (name : String)
    (schema : ToolSchema) (arguments : Option PyVal) :
    Except String (List (String × PyVal)) :=
  match arguments with
  | none => validateDict reSearch name schema []
  | some (.pdict args) => validateDict reSearch name schema args
  | some other =>
      .error ("Error: Invalid arguments for \x27" ++ name ++ "\x27: expected object, got "
        ++ pyTypeName other)

/-- What a handler call does: return a value, raise `TypeError` (bad keyword
arguments), or raise any other exception (its class name and message). -/
inductive HandlerBehavior where
  | returns (v : PyVal)
  | raisesTypeError (msg : String)
  | raises (excName msg : String)

/-- `ToolManager.execute`: unknown tool, validation failure, handler
`TypeError`, and any other handler exception each produce an
`"Error:"`-prefixed string; otherwise the handler's result is stringified
and returned as-is (so a handler-returned `"Error:..."` string passes
through).  The function is total — nothing propagates to the caller. -/
def executeTool (reSearch : String → String → Option Bool)
    (registry : List (String × ToolSchema × (List (String × PyVal) → HandlerBehavior)))
    (name : String) (arguments : Option PyVal) : String :=
  match List.lookup name registry with
  | none =>
      "Error: Tool \x27" ++ name ++ "\x27 not found. Available: "
        ++ String.intercalate ", " (registry.map Prod.fst)
  | some (schema, handler) =>
      match validateArguments reSearch name schema arguments with
      | .error e => e
      | .ok args =>
          match handler args with
          | .returns v => pyStr v
          | .raisesTypeError m =>
              "Error: Invalid arguments for \x27" ++ name ++ "\x27: " ++ m
          | .raises ex m => "Error: " ++ ex ++ ": " ++ m

theorem pyStartsWith_append (a b p : String) (h : pyStartsWith a p = true) :
    pyStartsWith (a ++ b) p = true := by
  unfold pyStartsWith at *
  rw [List.isPrefixOf_iff_prefix] at *
  have : a.toList <+: (a ++ b).toList := by
    rw [show (a ++ b).toList = a.toList ++ b.toList by simp [String.toList]]
    exact List.prefix_append _ _
  exact h.trans this

theorem checkPattern_error_starts (reSearch : String → String → Option Bool)
    (errPre key : String) (ps : PropSchema) (s : String) (e : String)
    (h : checkProp.checkPattern reSearch errPre key ps s = some e) :
    ∃ t, e = errPre ++ t := by
  unfold checkProp.checkPattern at h
  repeat' split at h
  all_goals try (cases h)
  all_goals (simp only [String.append_assoc]; exact ⟨_, rfl⟩)

theorem checkStrRest_error_starts (reSearch : String → String → Option Bool)
    (errPre key : String) (ps : PropSchema) (s : String) (e : String)
    (h : checkProp.checkStrRest reSearch errPre key ps s = some e) :
    ∃ t, e = errPre ++ t := by
  unfold checkProp.checkStrRest at h
  repeat' split at h
  all_goals try (cases h)
  all_goals try (exact checkPattern_error_starts _ _ _ _ _ _ h)
  all_goals (simp only [String.append_assoc]; exact ⟨_, rfl⟩)

theorem checkProp_error_starts (reSearch : String → String → Option Bool)
    (name key : String) (ps : PropSchema) (v : PyVal) (e : String)
    (h : checkProp reSearch name key ps v = some e) :
    pyStartsWith e "Error:" = true := by
  have hpre : ∃ t, e = ("Error: Invalid arguments for \x27" ++ name ++ "\x27: ") ++ t := by
    unfold checkProp at h
    repeat' split at h
    all_goals try (cases h)
    all_goals try (exact checkStrRest_error_starts _ _ _ _ _ _ h)
    all_goals (simp only [String.append_assoc]; exact ⟨_, rfl⟩)
  obtain ⟨t, rfl⟩ := hpre
  rw [show ("Error: Invalid arguments for \x27" ++ name ++ "\x27: ") ++ t =
    "Error: Invalid arguments for \x27" ++ (name ++ ("\x27: " ++ t)) by
      simp [String.append_assoc]]
  exact pyStartsWith_append _ _ _ (by decide)

theorem checkArgItems_error_starts (reSearch : String → String → Option Bool)
    (name : String) (properties : List (String × PropSchema))
    (args : List (String × PyVal)) (e : String)
    (h : checkArgItems reSearch name properties args = some e) :
    pyStartsWith e "Error:" = true := by
  induction args with
  | nil => cases h
  | cons kv rest ih =>
      obtain ⟨k, v⟩ := kv
      unfold checkArgItems at h
      repeat' split at h
      · exact ih h
      · rename_i heq
        injection h with h
        subst h
        exact checkProp_error_starts _ _ _ _ _ _ heq
      · exact ih h

theorem validateDict_error_starts (reSearch : String → String → Option Bool)
    (name : String) (schema : ToolSchema) (args : List (String × PyVal)) (e : String)
    (h : validateDict reSearch name schema args = .error e) :
    pyStartsWith e "Error:" = true := by
  unfold validateDict at h
  repeat' split at h
  all_goals try (cases h)
  all_goals try (rename_i heq; exact checkArgItems_error_starts _ _ _ _ _ heq)
  all_goals (simp only [String.append_assoc]; exact pyStartsWith_append _ _ _ (by decide))

/-- Every error message `_validate_arguments` can return starts with
`"Error:"`. -/
theorem validate_error_starts (reSearch : String → String → Option Bool)
    (name : String) (schema : ToolSchema) (arguments : Option PyVal) (e : String)
    (h : validateArguments reSearch name schema arguments = .error e) :
    pyStartsWith e "Error:" = true := by
  unfold validateArguments at h
  repeat' split at h
  all_goals try (exact validateDict_error_starts _ _ _ _ _ h)
  all_goals try (injection h with h; rw [← h])
  all_goals (simp only [String.append_assoc]; exact pyStartsWith_append _ _ _ (by decide))

/-- C4: `ToolManager.execute` is total (the Lean type `String` carries the
never-raises guarantee) and normalizes every failure to an
`"Error:"`-prefixed string: unknown tool, argument-validation failure,
handler `TypeError`, any other handler exception; a handler-returned value
is stringified and returned as-is, so a handler-returned `"Error:..."`
string keeps its prefix and any other returned string is the success
result. -/
theorem execute_total_error_normalized (reSearch : String → String → Option Bool)
    (registry : List (String × ToolSchema × (List (String × PyVal) → HandlerBehavior)))
    (name : String) (arguments : Option PyVal) :
    (List.lookup name registry = none →
      pyStartsWith (executeTool reSearch registry name arguments) "Error:" = true) ∧
    (∀ schema handler e, List.lookup name registry = some (schema, handler) →
      validateArguments reSearch name schema arguments = .error e →
      executeTool reSearch registry name arguments = e ∧
      pyStartsWith e "Error:" = true) ∧
    (∀ schema handler args m, List.lookup name registry = some (schema, handler) →
      validateArguments reSearch name schema arguments = .ok args →
      handler args = .raisesTypeError m →
      pyStartsWith (executeTool reSearch registry name arguments) "Error:" = true) ∧
    (∀ schema handler args ex m, List.lookup name registry = some (schema, handler) →
      validateArguments reSearch name schema arguments = .ok args →
      handler args = .raises ex m →
      pyStartsWith (executeTool reSearch registry name arguments) "Error:" = true) ∧
    (∀ schema handler args v, List.lookup name registry = some (schema, handler) →
      validateArguments reSearch name schema arguments = .ok args →
      handler args = .returns v →
      executeTool reSearch registry name arguments = pyStr v) := by
  refine ⟨?_, ?_, ?_, ?_, ?_⟩
  · intro hnone
    unfold executeTool
    rw [hnone]
    simp only [String.append_assoc]
    exact pyStartsWith_append _ _ _ (by decide)
  · intro schema handler e hl hv
    unfold executeTool
    rw [hl]
    dsimp only
    rw [hv]
    exact ⟨rfl, validate_error_starts _ _ _ _ _ hv⟩
  · intro schema handler args m hl hv hh
    unfold executeTool
    rw [hl]
    dsimp only
    rw [hv]
    dsimp only
    rw [hh]
    simp only [String.append_assoc]
    exact pyStartsWith_append _ _ _ (by decide)
  · intro schema handler args ex m hl hv hh
    unfold executeTool
    rw [hl]
    dsimp only
    rw [hv]
    dsimp only
    rw [hh]
    simp only [String.append_assoc]
    exact pyStartsWith_append _ _ _ (by decide)
  · intro schema handler args v hl hv hh
    unfold executeTool
    rw [hl]
    dsimp only
    rw [hv]
    dsimp only
    rw [hh]

/-- The registered `read_file` tool of the C4 and C10 witnesses. -/
def c4Schema : ToolSchema :=
  { description := "Read a file"
    parameters := some
      { properties := [("path", { type := some "string" })]
        required := ["path"] } }

def c4Handler : List (String × PyVal) → HandlerBehavior := fun args =>
  match List.lookup "path" args with
  | some (.pstr p) => .returns (.pstr ("contents of " ++ p))
  | _ => .raises "OSError" "file not found"

def c4Registry : List (String × ToolSchema × (List (String × PyVal) → HandlerBehavior)) :=
  [("read_file", c4Schema, c4Handler)]

def c4ReSearch : String → String → Option Bool := fun _ _ => none

/-- C4 witness: an unknown tool, a missing-required failure and a successful
call, on a concrete one-tool registry. -/
theorem execute_total_witness :
    List.lookup "nope" c4Registry = none ∧
    pyStartsWith (executeTool c4ReSearch c4Registry "nope" none) "Error:" = true ∧
    validateArguments c4ReSearch "read_file" c4Schema (some (.pdict [])) =
      .error "Error: Invalid arguments for \x27read_file\x27: missing required path" ∧
    executeTool c4ReSearch c4Registry "read_file" (some (.pdict [])) =
      "Error: Invalid arguments for \x27read_file\x27: missing required path" ∧
    executeTool c4ReSearch c4Registry "read_file"
        (some (.pdict [("path", .pstr "a.py")])) =
      pyStr (.pstr ("contents of " ++ "a.py")) := by
  refine ⟨rfl, ?_, ?_, ?_, ?_⟩
  · exact (execute_total_error_normalized c4ReSearch c4Registry "nope" none).1 rfl
  · rfl
  · exact ((execute_total_error_normalized c4ReSearch c4Registry "read_file"
      (some (.pdict []))).2.1 c4Schema c4Handler _ rfl rfl).1
  · exact (execute_total_error_normalized c4ReSearch c4Registry "read_file"
      (some (.pdict [("path", .pstr "a.py")]))).2.2.2.2 c4Schema c4Handler
      [("path", .pstr "a.py")] (.pstr ("contents of " ++ "a.py")) rfl rfl rfl

theorem checkArgItems_nil_props (reSearch : String → String → Option Bool)
    (name : String) : ∀ l, checkArgItems reSearch name [] l = none := by
  intro l
  induction l with
  | nil => rfl
  | cons kv rest ih =>
      obtain ⟨k, v⟩ := kv
      unfold checkArgItems
      rw [show List.lookup k ([] : List (String × PropSchema)) = none from rfl]
      exact ih

/-- C10: the unknown-argument check fires only when the schema declares a
non-empty `properties` map.  When `properties` is empty or missing, the
unknown-key list is empty for any argument dict; and if additionally every
required key is present, validation succeeds with the arguments passed
through unchanged and `execute` forwards them to the handler. -/
theorem empty_properties_admit_any_keys (reSearch : String → String → Option Bool)
    (name : String) (schema : ToolSchema) (args : List (String × PyVal))
    (hprops : schemaProperties schema = [])
    (hmiss : missingKeys schema args = []) :
    unknownKeys schema args = [] ∧
    validateArguments reSearch name schema (some (.pdict args)) = .ok args ∧
    (∀ (registry : List (String × ToolSchema × (List (String × PyVal) → HandlerBehavior)))
        handler,
      List.lookup name registry = some (schema, handler) →
      executeTool reSearch registry name (some (.pdict args)) =
        (match handler args with
         | .returns v => pyStr v
         | .raisesTypeError m =>
             "Error: Invalid arguments for \x27" ++ name ++ "\x27: " ++ m
         | .raises ex m => "Error: " ++ ex ++ ": " ++ m)) := by
  have hunk : unknownKeys schema args = [] := by
    unfold unknownKeys
    rw [hprops]
    simp
  have hval : validateArguments reSearch name schema (some (.pdict args)) = .ok args := by
    show validateDict reSearch name schema args = .ok args
    unfold validateDict
    rw [hmiss, hunk, hprops, checkArgItems_nil_props]
    rfl
  refine ⟨hunk, hval, ?_⟩
  intro registry handler hl
  unfold executeTool
  rw [hl]
  dsimp only
  rw [hval]

/-- C10 witness: a schema with no `parameters` object at all accepts an
argument dict with arbitrary keys and forwards it to the handler. -/
theorem empty_properties_witness :
    schemaProperties { description := "no params" } = [] ∧
    missingKeys { description := "no params" }
      [("anything", PyVal.pint 3), ("extra", PyVal.pbool true)] = [] ∧
    validateArguments c4ReSearch "free_tool" { description := "no params" }
        (some (.pdict [("anything", PyVal.pint 3), ("extra", PyVal.pbool true)])) =
      .ok [("anything", PyVal.pint 3), ("extra", PyVal.pbool true)] := by
  refine ⟨rfl, rfl, ?_⟩
  exact (empty_properties_admit_any_keys c4ReSearch "free_tool"
    { description := "no params" }
    [("anything", PyVal.pint 3), ("extra", PyVal.pbool true)] rfl rfl).2.1

/-! ## Storage lock-retry / reopen policy
(`database.py`, `DatabaseManager.execute`, lines 168–186)

The SQL engine is the oracle `oracle n`: what the `n`-th attempt's
`db.execute(sql, params); db.commit()` does.  An exception carries its
Python class (`ProgrammingError`, `OperationalError`, or anything else
— uncaught by the loop) and its message.  `LOCK_RETRIES = 20`. -/

inductive ExcKind where
  | programming
  | operational
  | otherKind
  deriving Repr, DecidableEq

structure DbExc where
  kind : ExcKind
  msg : String
  deriving Repr, DecidableEq

inductive DbAttempt where
  | success
  | fail (e : DbExc)
  deriving Repr, DecidableEq

/-- `_is_locked_error`. -/
def isLockedError (msg : String) : Bool :=
  pyContains (pyLower msg) "locked" || pyContains (pyLower msg) "busy"

/-- `"closed" not in str(exc).lower()`, negated. -/
def isClosedMsg (msg : String) : Bool :=
  pyContains (pyLower msg) "closed"

inductive DbResult where
  | ok
  | raised (e : DbExc)
  | fellThrough
  deriving Repr, DecidableEq

/-- The retry loop from a given attempt index with the given remaining
attempts: a `ProgrammingError` containing "closed" reopens the connection
and continues; a locked/busy `OperationalError` sleeps and retries unless
this was the last attempt; anything else propagates.  Exhausting the
attempts by `continue` falls out of the `for` and returns `None`
(`fellThrough`).  Returns (result, attempts made, reopens). -/
def dbRunFrom (oracle : Nat → DbAttempt) :
    Nat → Nat → Nat → DbResult × Nat × Nat
  | attempt, 0, reopens => (.fellThrough, attempt, reopens)
  | attempt, fuel + 1, reopens =>
      match oracle attempt with
      | .success => (.ok, attempt + 1, reopens)
      | .fail e =>
          match e.kind with
          | .programming =>
              if isClosedMsg e.msg then
                dbRunFrom oracle (attempt + 1) fuel (reopens + 1)
              else (.raised e, attempt + 1, reopens)
          | .operational =>
              if isLockedError e.msg then
                if fuel = 0 then (.raised e, attempt + 1, reopens)
                else dbRunFrom oracle (attempt + 1) fuel reopens
              else (.raised e, attempt + 1, reopens)
          | .otherKind => (.raised e, attempt + 1, reopens)

/-- `DatabaseManager.execute` with `LOCK_RETRIES = 20`. -/
def dbExecute (oracle : Nat → DbAttempt) : DbResult × Nat × Nat :=
  dbRunFrom oracle 0 20 0

/-- An exception the loop absorbs rather than propagates. -/
def dbRetryable (e : DbExc) : Bool :=
  match e.kind with
  | .operational => isLockedError e.msg
  | .programming => isClosedMsg e.msg
  | .otherKind => false

theorem dbRunFrom_locked_all (oracle : Nat → DbAttempt) (e : DbExc)
    (hk : e.kind = .operational) (hl : isLockedError e.msg = true) :
    ∀ fuel attempt reopens, 0 < fuel → (∀ i, oracle i = .fail e) →
    dbRunFrom oracle attempt fuel reopens = (.raised e, attempt + fuel, reopens) := by
  intro fuel
  induction fuel with
  | zero => intro _ _ h; exact absurd h (by simp)
  | succ n ih =>
      intro attempt reopens _ hall
      unfold dbRunFrom
      rw [hall attempt]
      dsimp only
      rw [hk]
      dsimp only
      rw [hl]
      rw [if_pos rfl]
      cases hn : n with
      | zero => simp
      | succ m =>
          rw [if_neg (by simp)]
          have := ih attempt.succ reopens (by omega) hall
          rw [hn] at this
          rw [this]
          refine congrArg _ ?_
          refine congrArg (fun k => (k, reopens)) ?_
          omega

theorem dbRunFrom_success_after (oracle : Nat → DbAttempt) (e : DbExc)
    (hk : e.kind = .operational) (hl : isLockedError e.msg = true) :
    ∀ k fuel attempt reopens, k + 1 < fuel →
    (∀ i, i < k → oracle (attempt + i) = .fail e) →
    oracle (attempt + k) = .success →
    dbRunFrom oracle attempt fuel reopens = (.ok, attempt + k + 1, reopens) := by
  intro k
  induction k with
  | zero =>
      intro fuel attempt reopens hf _ hs
      cases fuel with
      | zero => omega
      | succ n =>
          unfold dbRunFrom
          rw [show attempt + 0 = attempt from rfl] at hs
          rw [hs]
  | succ m ih =>
      intro fuel attempt reopens hf hfail hs
      cases fuel with
      | zero => omega
      | succ n =>
          unfold dbRunFrom
          rw [show oracle attempt = .fail e from by simpa using hfail 0 (by omega)]
          dsimp only
          rw [hk]
          dsimp only
          rw [hl]
          rw [if_pos rfl]
          rw [if_neg (by omega)]
          have := ih n (attempt + 1) reopens (by omega)
            (fun i hi => by
              rw [show attempt + 1 + i = attempt + (i + 1) by omega]
              exact hfail (i + 1) (by omega))
            (by rw [show attempt + 1 + m = attempt + (m + 1) by omega]; exact hs)
          rw [this]
          refine congrArg _ ?_
          refine congrArg (fun k => (k, reopens)) ?_
          omega

theorem dbRunFrom_never_raises_closed (oracle : Nat → DbAttempt) :
    ∀ fuel attempt reopens e,
    (dbRunFrom oracle attempt fuel reopens).1 = .raised e →
    ¬ (e.kind = .programming ∧ isClosedMsg e.msg = true) := by
  intro fuel
  induction fuel with
  | zero => intro attempt reopens e h; cases h
  | succ n ih =>
      intro attempt reopens e h
      unfold dbRunFrom at h
      cases ho : oracle attempt with
      | success => rw [ho] at h; cases h
      | fail e' =>
          rw [ho] at h
          dsimp only at h
          cases hk : e'.kind with
          | programming =>
              rw [hk] at h
              by_cases hc : isClosedMsg e'.msg = true
              · rw [if_pos hc] at h
                exact ih _ _ _ h
              · rw [if_neg hc] at h
                injection h with h
                subst h
                rintro ⟨h1, h2⟩
                exact hc h2
          | operational =>
              rw [hk] at h
              by_cases hlck : isLockedError e'.msg = true
              · rw [if_pos hlck] at h
                by_cases hn : n = 0
                · rw [if_pos hn] at h
                  injection h with h
                  subst h
                  rintro ⟨h1, _⟩
                  rw [hk] at h1
                  cases h1
                · rw [if_neg hn] at h
                  exact ih _ _ _ h
              · rw [if_neg hlck] at h
                injection h with h
                subst h
                rintro ⟨h1, _⟩
                rw [hk] at h1
                cases h1
          | otherKind =>
              rw [hk] at h
              injection h with h
              subst h
              rintro ⟨h1, _⟩
              rw [hk] at h1
              cases h1

/-- C8: (a) a persistent locked/busy condition is retried with backoff and
propagates only after all 20 attempts; (b) a locked/busy condition that
clears before the 20th attempt ends in success; (c) a "closed" connection
error never propagates — it is absorbed by a transparent reopen-and-retry;
(d) any other database error propagates from the first attempt it occurs
on, with no retry. -/
theorem db_retry_reopen_policy (oracle : Nat → DbAttempt) (e : DbExc) :
    ((∀ i, oracle i = .fail e) → e.kind = .operational →
      isLockedError e.msg = true → dbExecute oracle = (.raised e, 20, 0)) ∧
    (∀ k, k + 1 < 20 → (∀ i, i < k → oracle i = .fail e) →
      e.kind = .operational → isLockedError e.msg = true → oracle k = .success →
      dbExecute oracle = (.ok, k + 1, 0)) ∧
    (∀ e', (dbExecute oracle).1 = .raised e' →
      ¬ (e'.kind = .programming ∧ isClosedMsg e'.msg = true)) ∧
    (oracle 0 = .fail e → dbRetryable e = false →
      dbExecute oracle = (.raised e, 1, 0)) := by
  refine ⟨?_, ?_, ?_, ?_⟩
  · intro hall hk hl
    have := dbRunFrom_locked_all oracle e hk hl 20 0 0 (by omega) hall
    simpa using this
  · intro k hlt hfail hk hl hs
    have := dbRunFrom_success_after oracle e hk hl k 20 0 0 hlt
      (fun i hi => by simpa using hfail i hi) (by simpa using hs)
    simpa using this
  · intro e' h
    exact dbRunFrom_never_raises_closed oracle 20 0 0 e' h
  · intro h0 hnr
    show dbRunFrom oracle 0 20 0 = (.raised e, 1, 0)
    unfold dbRunFrom
    rw [h0]
    dsimp only
    unfold dbRetryable at hnr
    cases hk : e.kind with
    | programming =>
        rw [hk] at hnr
        dsimp only at hnr
        dsimp only
        rw [if_neg (by simp [hnr])]
    | operational =>
        rw [hk] at hnr
        dsimp only at hnr
        dsimp only
        rw [if_neg (by simp [hnr])]
    | otherKind => rfl

/-- C8 witness: an engine locked on the first two attempts and free on the
third lets the call succeed on attempt 3; a foreign-key violation
(`IntegrityError`, neither locked nor closed) propagates at once. -/
theorem db_retry_reopen_witness :
    (∀ i, i < 2 →
      (fun n => if n < 2 then DbAttempt.fail ⟨.operational, "database is locked"⟩
                else .success) i = .fail ⟨.operational, "database is locked"⟩) ∧
    ((⟨.operational, "database is locked"⟩ : DbExc).kind = .operational) ∧
    isLockedError "database is locked" = true ∧
    dbExecute (fun n => if n < 2 then .fail ⟨.operational, "database is locked"⟩
      else .success) = (.ok, 3, 0) ∧
    dbExecute (fun _ => .fail ⟨.otherKind, "FOREIGN KEY constraint failed"⟩) =
      (.raised ⟨.otherKind, "FOREIGN KEY constraint failed"⟩, 1, 0) := by
  refine ⟨by decide, rfl, by decide, ?_, ?_⟩
  · exact (db_retry_reopen_policy
      (fun n => if n < 2 then .fail ⟨.operational, "database is locked"⟩ else .success)
      ⟨.operational, "database is locked"⟩).2.1 2 (by omega)
      (fun i hi => by simp [hi]) rfl (by decide) (by decide)
  · exact (db_retry_reopen_policy
      (fun _ => .fail ⟨.otherKind, "FOREIGN KEY constraint failed"⟩)
      ⟨.otherKind, "FOREIGN KEY constraint failed"⟩).2.2.2 rfl (by decide)

/-! ## Plan gate (`turn_orchestrator.py`, `_run_plan_turn`)

The observable behaviour of one plan-mode turn is a trace of actions: the
planning model call (`generate_plan`), transcript appends, persistence
writes, UI pushes, the plan-tracker assignment, warnings, and the hand-off
into the Agent Loop (`_start_ai_run`).  The user's confirmation decision is
the parameter `approved`; whether the chat screen is mounted is
`onChatScreen`. -/

inductive TurnAction where
  | modelCall
  | appendMessage (role content : String)
  | saveMessage (role content : String)
  | uiAdd (role content : String)
  | setPlanTracker (items : List String)
  | notifyWarning (msg : String)
  | startAiRun (input : String)
  deriving Repr, DecidableEq

/-- `s[n:]` on characters. -/
def pyDrop (s : String) (n : Nat) : String :=
  ⟨s.toList.drop n⟩

/-- `re.sub(r"^\d+\.\s+", "", line)`: strip a leading run of digits
followed by a dot and at least one whitespace; no match leaves the line
unchanged. -/
def dropNumbering (s : String) : String :=
  let cs := s.toList
  let ds := cs.takeWhile Char.isDigit
  let rest := cs.dropWhile Char.isDigit
  if ds.isEmpty then s
  else
    match rest with
    | '.' :: r₂ =>
        if (r₂.takeWhile Char.isWhitespace).isEmpty then s
        else ⟨r₂.dropWhile Char.isWhitespace⟩
    | _ => s

/-- One line of `_extract_plan_items` (lines 101–114). -/
def extractLine (raw : String) : Option String :=
  let line := pyStrip raw
  if line.isEmpty then none
  else
    let line :=
      if pyStartsWith line "- " || pyStartsWith line "* " then pyStrip (pyDrop line 2)
      else dropNumbering line
    let line :=
      if pyStartsWith line "[ ]" then pyStrip (pyDrop line 3)
      else if pyStartsWith line "[x]" || pyStartsWith line "[X]" then
        pyStrip (pyDrop line 3)
      else line
    if line.isEmpty then none else some line

/-- `_extract_plan_items`, with the fallback to bare non-blank lines when no
marker matched anywhere. -/
def extractPlanItems (planSummary : String) : List String :=
  let items := (pySplitLines planSummary).filterMap extractLine
  if items.isEmpty && !(pyStrip planSummary).isEmpty then
    (pySplitLines planSummary).filterMap
      (fun x => if (pyStrip x).isEmpty then none else some (pyStrip x))
  else items

/-- `_format_plan_items`. -/
def formatPlanItems (items : List String) (completed : Nat) : String :=
  if items.isEmpty then ""
  else
    String.intercalate "\n"
      (items.enum.map (fun p =>
        "- [" ++ (if p.1 < min completed items.length then "x" else " ") ++ "] " ++ p.2))

/-- The plan message rendered for a summary. -/
def planMessageOf (planSummary : String) : String :=
  "[PLAN]\n" ++ formatPlanItems (extractPlanItems planSummary) 0

/-- `_run_plan_turn` (lines 22–85), driven by the planning call's result
`planSummary` and the confirmation decision `approved`.  Returns the action
trace and the method's boolean result. -/
def runPlanTurn (userInput planSummary : String) (approved : Bool)
    (onChatScreen : Bool) : List TurnAction × Bool :=
  let trace := [TurnAction.modelCall]
  if planSummary.isEmpty || pyStrip planSummary == "[NO_PLAN]" then
    (trace ++ [.startAiRun userInput], true)
  else
    let items := extractPlanItems planSummary
    let planMsg := planMessageOf planSummary
    let trace := trace ++
      [.appendMessage "assistant" planMsg, .saveMessage "assistant" planMsg] ++
      (if onChatScreen then [.uiAdd "assistant" planMsg] else []) ++
      [.setPlanTracker items]
    if !approved then
      (trace ++ [.notifyWarning "Plan execution cancelled."], false)
    else
      let approvalSys :=
        "Execution plan approved by user. Execute the approved plan now. " ++
        "Do not generate a new plan. Apply this plan step by step and deliver outcomes.\n\n" ++
        "Approved plan:\n" ++ planSummary
      let approvalSave :=
        "Execution plan approved by user.\n\nApproved plan:\n" ++ planSummary
      let approvedMsg := "Plan approved. Executing..."
      (trace ++
        [.appendMessage "system" approvalSys, .saveMessage "system" approvalSave,
          .appendMessage "assistant" approvedMsg] ++
        (if onChatScreen then [.uiAdd "assistant" approvedMsg] else []) ++
        [.saveMessage "assistant" approvedMsg, .startAiRun userInput], true)

def TurnAction.isStartRun : TurnAction → Bool
  | .startAiRun _ => true
  | _ => false

def TurnAction.isModelCall : TurnAction → Bool
  | .modelCall => true
  | _ => false

def TurnAction.appended : TurnAction → Option (String × String)
  | .appendMessage r c => some (r, c)
  | _ => none

def TurnAction.saved : TurnAction → Option (String × String)
  | .saveMessage r c => some (r, c)
  | _ => none

/-- C9: a plan-mode turn whose confirmation decision is false ends with the
warning, returns false, never starts an Agent Loop run, issues no model call
beyond the one planning call made before the decision, and appends and
persists nothing beyond the already-rendered plan message. -/
theorem plan_rejection_no_side_effects (userInput planSummary : String)
    (onChatScreen : Bool)
    (hne : planSummary.isEmpty = false)
    (hskip : (pyStrip planSummary == "[NO_PLAN]") = false) :
    (runPlanTurn userInput planSummary false onChatScreen).2 = false ∧
    (∀ a ∈ (runPlanTurn userInput planSummary false onChatScreen).1,
      a.isStartRun = false) ∧
    ((runPlanTurn userInput planSummary false onChatScreen).1.filter
      TurnAction.isModelCall) = [.modelCall] ∧
    ((runPlanTurn userInput planSummary false onChatScreen).1.filterMap
      TurnAction.appended) = [("assistant", planMessageOf planSummary)] ∧
    ((runPlanTurn userInput planSummary false onChatScreen).1.filterMap
      TurnAction.saved) = [("assistant", planMessageOf planSummary)] ∧
    (runPlanTurn userInput planSummary false onChatScreen).1.getLast? =
      some (.notifyWarning "Plan execution cancelled.") := by
  have hrun : runPlanTurn userInput planSummary false onChatScreen =
      ([TurnAction.modelCall] ++
        [.appendMessage "assistant" (planMessageOf planSummary),
         .saveMessage "assistant" (planMessageOf planSummary)] ++
        (if onChatScreen then
          [TurnAction.uiAdd "assistant" (planMessageOf planSummary)] else []) ++
        [.setPlanTracker (extractPlanItems planSummary)] ++
        [.notifyWarning "Plan execution cancelled."], false) := by
    unfold runPlanTurn
    rw [hne, hskip]
    simp
  rw [hrun]
  cases onChatScreen <;>
    simp [TurnAction.isStartRun, TurnAction.isModelCall, TurnAction.appended,
      TurnAction.saved, List.filter, List.filterMap]

/-- C9 witness: a two-item checklist plan rejected by the user. -/
theorem plan_rejection_witness :
    ("- step one\n- step two" : String).isEmpty = false ∧
    (pyStrip "- step one\n- step two" == "[NO_PLAN]") = false ∧
    (runPlanTurn "refactor the parser" "- step one\n- step two" false true).2 = false := by
  refine ⟨by decide, by decide, ?_⟩
  exact (plan_rejection_no_side_effects "refactor the parser"
    "- step one\n- step two" true (by decide) (by decide)).1

end Opendev
